import Mathlib

/-!
# wsdb storage and execution core

A shallow embedding of

* `src/storage/disk/disk_manager.cpp` (class DiskManager),
* `src/execution/executor_delete.cpp` (class DeleteExecutor),
* `src/execution/executor_seqscan.cpp` (class SeqScanExecutor),

followed by the properties proved about them.

Conventions.  A C++ member function becomes a Lean function that takes the
object state (and, for the disk manager, the state of the operating system)
and returns the outcome together with the new states.  A thrown exception, a
fatal exit and an unimplemented body are values of `Abort`.  System calls are
the fields of `Sys`; `posix` is an executable instance in which a file is a
byte sequence and a descriptor carries a seek position.
-/

namespace wsdb

/-! ## Association maps

`name_fid_map_` and `fid_name_map_` are used through `find`, `insert`,
`erase` and `operator[]` on a present key.  They are modelled as association
lists with the semantics of a key-unique map. -/

namespace Map

/-- Lookup, as `m.find(k)`: `none` stands for `m.end()`. -/
def find {κ ν : Type} [DecidableEq κ] : List (κ × ν) → κ → Option ν
  | [], _ => none
  | (k1, v) :: m, k => if k1 = k then some v else find m k

/-- Insertion as `m.insert(std::make_pair(k, v))`: a key that is already
present keeps its old value. -/
def insert {κ ν : Type} [DecidableEq κ] (m : List (κ × ν)) (k : κ) (v : ν) : List (κ × ν) :=
  match find m k with
  | some _ => m
  | none => (k, v) :: m

/-- Removal as `m.erase(k)`. -/
def erase {κ ν : Type} [DecidableEq κ] : List (κ × ν) → κ → List (κ × ν)
  | [], _ => []
  | (k1, v) :: m, k => if k1 = k then erase m k else (k1, v) :: erase m k

/-- Overwriting update (used by the file model only). -/
def set {κ ν : Type} [DecidableEq κ] (m : List (κ × ν)) (k : κ) (v : ν) : List (κ × ν) :=
  (k, v) :: erase m k

end Map

/-! ## Outcomes -/

/-- One byte of a `char` buffer. -/
abbrev Byte := Fin 256

/-- Error codes passed to `WSDBException` in the three source files. -/
inductive WSDBExceptionType
  | WSDB_FILE_EXISTS
  | WSDB_FILE_NOT_EXISTS
  | WSDB_FILE_DELETE_ERROR
  | WSDB_FILE_REOPEN
  | WSDB_FILE_NOT_OPEN
  | WSDB_PAGE_WRITE_ERROR
  | WSDB_PAGE_READ_ERROR
  deriving DecidableEq

/-- Ways in which a member function leaves without returning.

* `WSDBException t c f m` is `throw WSDBException(t, Q(c), Q(f), m)`;
* `FETAL c f m` is the fatal exit of `WSDB_FETAL(c, f, m)`, also taken by a
  failing `WSDB_ASSERT(c, f, cond, m)`;
* `STUDENT_TODO l q c f` is `WSDB_STUDENT_TODO(l, q, c, f)`. -/
inductive Abort
  | WSDBException (type : WSDBExceptionType) (cname fname msg : String)
  | FETAL (cname fname msg : String)
  | STUDENT_TODO (lab q cname fname : String)
  deriving DecidableEq

/-- Modelled from the spec: `WSDB_ASSERT` is declared in `common/error.h`,
which is not among the sources.  The specification calls it a fatal assertion
(not a recoverable error): when the condition is false the call does not
return.  `none` means that the assertion passed. -/
def WSDB_ASSERT (cname fname : String) (cond : Bool) (msg : String) : Option Abort :=
  if cond then none else some (Abort.FETAL cname fname msg)

/-- Modelled from the spec: `WSDB_FETAL` is declared in `common/error.h`,
which is not among the sources.  The specification says that the operation
fails fatally (unrecoverable): the current operation chain is terminated
instead of returning a typed error. -/
def WSDB_FETAL (cname fname msg : String) : Abort :=
  Abort.FETAL cname fname msg

/-- The placeholder `WSDB_STUDENT_TODO(lab, q, cname, fname)`, declared in
`common/error.h`, which is not among the sources.  It is the whole body of the
member functions that use it, among them `IsEnd() const -> bool`, which has no
return statement; it receives four tokens and no part of the object.  It is
therefore embedded as an exit that returns no value, labelled with its four
arguments, and that leaves the object as it was. -/
def WSDB_STUDENT_TODO (lab q cname fname : String) : Abort :=
  Abort.STUDENT_TODO lab q cname fname

/-! ## Constants of `common/config.h` and of the system headers -/

/-- Modelled from the spec: `common/config.h` is not among the sources.
`PAGE_SIZE` is the fixed engine-wide page size, `INVALID_TABLE_ID` the
dedicated sentinel returned by `GetFileId` for a name that is not open, and
`sizeof_int` is `sizeof(int)` of the platform. -/
structure Config where
  PAGE_SIZE : Nat
  INVALID_TABLE_ID : Int
  sizeof_int : Nat
  deriving DecidableEq

/-- The origin `SEEK_SET` of `<unistd.h>`. -/
def SEEK_SET : Int := 0

/-- The origin `SEEK_CUR` of `<unistd.h>`. -/
def SEEK_CUR : Int := 1

/-- The origin `SEEK_END` of `<unistd.h>`. -/
def SEEK_END : Int := 2

/-- The conversion `static_cast<off_t>(x)` to a signed 64 bit offset. -/
def off_t_cast (x : Int) : Int :=
  (x + 2 ^ 63) % 2 ^ 64 - 2 ^ 63

/-- The byte offset
`static_cast<off_t>(page_id) * static_cast<off_t>(PAGE_SIZE)`
computed in `off_t`. -/
def page_offset (cfg : Config) (page_id : Int) : Int :=
  off_t_cast (off_t_cast page_id * off_t_cast (cfg.PAGE_SIZE : Int))

/-! ## The operating system interface -/

/-- The calls that `disk_manager.cpp` makes into the C++ runtime and the
operating system, over a state `σ` of the outside world.

* `fs_exists os p` is `std::filesystem::exists(p)`;
* `ofstream os p` is `std::ofstream file(p)`, closed again when it is good:
  it returns whether the stream was good;
* `unlink os p` is `unlink(p)` and returns its result;
* `open_rdwr os p` is `open(p, O_RDWR)` and returns the descriptor or -1;
* `close os fd` is `close(fd)`;
* `lseek os fd off whence` is `lseek(fd, off, whence)`;
* `write os fd data n` is `write(fd, data, n)` and returns the count;
* `read os fd n` is `read(fd, buf, n)`: it returns the count and the bytes
  that the call stored at the start of `buf`. -/
structure Sys (σ : Type) where
  fs_exists : σ → String → Bool
  ofstream : σ → String → Bool × σ
  unlink : σ → String → Int × σ
  open_rdwr : σ → String → Int × σ
  close : σ → Int → Int × σ
  lseek : σ → Int → Int → Int → Int × σ
  write : σ → Int → List Byte → Nat → Int × σ
  read : σ → Int → Nat → Int × List Byte × σ

/-- The buffer after a `read` that stored `bytes` at its start: the bytes
behind them are the ones that were there before. -/
def storeBuf (buf bytes : List Byte) : List Byte :=
  bytes ++ buf.drop bytes.length

/-! ## DiskManager -/

/-- The data members of `DiskManager`. -/
structure DiskManager where
  name_fid_map_ : List (String × Int)
  fid_name_map_ : List (Int × String)
  deriving DecidableEq

/-- Outcome of a member function of `DiskManager`: the value returned or the
way the call was left, and the states of the object and of the outside world
at that moment. -/
structure Ret (α σ : Type) where
  result : Except Abort α
  dm : DiskManager
  os : σ

namespace DiskManager

/-- A disk manager that tracks no file. -/
def empty : DiskManager :=
  { name_fid_map_ := [], fid_name_map_ := [] }

/-- The member `DiskManager::FileExists`. -/
def FileExists {σ : Type} (sys : Sys σ) (fname : String) (os : σ) : Bool :=
  sys.fs_exists os fname

/-- The member `DiskManager::CreateFile`. -/
def CreateFile {σ : Type} (sys : Sys σ) (fname : String) (dm : DiskManager) (os : σ) : Ret Unit σ :=
  if FileExists sys fname os then
    ⟨.error (.WSDBException .WSDB_FILE_EXISTS "DiskManager" "CreateFile" fname), dm, os⟩
  else if !(sys.ofstream os fname).1 then
    ⟨.error (WSDB_FETAL "DiskManager" "CreateFile" "Create file failed"), dm, (sys.ofstream os fname).2⟩
  else
    ⟨.ok (), dm, (sys.ofstream os fname).2⟩

/-- The member `DiskManager::DestroyFile`. -/
def DestroyFile {σ : Type} (sys : Sys σ) (fname : String) (dm : DiskManager) (os : σ) : Ret Unit σ :=
  if !FileExists sys fname os then
    ⟨.error (.WSDBException .WSDB_FILE_NOT_EXISTS "DiskManager" "DestroyFile" fname), dm, os⟩
  else if (sys.unlink os fname).1 < 0 then
    ⟨.error (.WSDBException .WSDB_FILE_DELETE_ERROR "DiskManager" "DestroyFile" fname), dm, (sys.unlink os fname).2⟩
  else
    ⟨.ok (), dm, (sys.unlink os fname).2⟩

/-- The member `DiskManager::OpenFile`. -/
def OpenFile {σ : Type} (sys : Sys σ) (fname : String) (dm : DiskManager) (os : σ) : Ret Int σ :=
  if !FileExists sys fname os then
    ⟨.error (.WSDBException .WSDB_FILE_NOT_EXISTS "DiskManager" "OpenFile" fname), dm, os⟩
  else if (Map.find dm.name_fid_map_ fname).isSome then
    ⟨.error (.WSDBException .WSDB_FILE_REOPEN "DiskManager" "OpenFile" fname), dm, os⟩
  else if (sys.open_rdwr os fname).1 = -1 then
    ⟨.error (.WSDBException .WSDB_FILE_NOT_OPEN "DiskManager" "OpenFile" fname), dm, (sys.open_rdwr os fname).2⟩
  else
    ⟨.ok (sys.open_rdwr os fname).1,
     { name_fid_map_ := Map.insert dm.name_fid_map_ fname (sys.open_rdwr os fname).1,
       fid_name_map_ := Map.insert dm.fid_name_map_ (sys.open_rdwr os fname).1 fname },
     (sys.open_rdwr os fname).2⟩

/-- The member `DiskManager::CloseFile`.  In the branch that erases, the key
`fid` is present, so `fid_name_map_[fid]` is the name found for it. -/
def CloseFile {σ : Type} (sys : Sys σ) (fid : Int) (dm : DiskManager) (os : σ) : Ret Unit σ :=
  match Map.find dm.fid_name_map_ fid with
  | none =>
    ⟨.error (.WSDBException .WSDB_FILE_NOT_OPEN "DiskManager" "CloseFile" ("fid: " ++ toString fid)), dm, os⟩
  | some name =>
    ⟨.ok (),
     { name_fid_map_ := Map.erase dm.name_fid_map_ name,
       fid_name_map_ := Map.erase dm.fid_name_map_ fid },
     (sys.close os fid).2⟩

/-- The member `DiskManager::WritePage`. -/
def WritePage {σ : Type} (cfg : Config) (sys : Sys σ) (fid page_id : Int) (data : List Byte)
    (dm : DiskManager) (os : σ) : Ret Unit σ :=
  match WSDB_ASSERT "DiskManager" "WritePage()" (Map.find dm.fid_name_map_ fid).isSome
      ("fid: " ++ toString fid) with
  | some e => ⟨.error e, dm, os⟩
  | none =>
    if (sys.write (sys.lseek os fid (page_offset cfg page_id) SEEK_SET).2 fid data cfg.PAGE_SIZE).1
        ≠ (cfg.PAGE_SIZE : Int) then
      ⟨.error (.WSDBException .WSDB_PAGE_WRITE_ERROR "DiskManager" "WritePage"
          ("fid: " ++ toString fid ++ ", page_id: " ++ toString page_id)), dm,
        (sys.write (sys.lseek os fid (page_offset cfg page_id) SEEK_SET).2 fid data cfg.PAGE_SIZE).2⟩
    else
      ⟨.ok (), dm,
        (sys.write (sys.lseek os fid (page_offset cfg page_id) SEEK_SET).2 fid data cfg.PAGE_SIZE).2⟩

/-- The member `DiskManager::ReadPage`.  The value returned on success is the
buffer `data` of the caller after the call. -/
def ReadPage {σ : Type} (cfg : Config) (sys : Sys σ) (fid page_id : Int) (data : List Byte)
    (dm : DiskManager) (os : σ) : Ret (List Byte) σ :=
  match WSDB_ASSERT "DiskManager" "ReadPage()" (Map.find dm.fid_name_map_ fid).isSome
      ("fid: " ++ toString fid) with
  | some e => ⟨.error e, dm, os⟩
  | none =>
    if (sys.read (sys.lseek os fid (page_offset cfg page_id) SEEK_SET).2 fid cfg.PAGE_SIZE).1 < 0 then
      ⟨.error (.WSDBException .WSDB_PAGE_READ_ERROR "DiskManager" "ReadPage"
          ("fid: " ++ toString fid ++ ", page_id: " ++ toString page_id)), dm,
        (sys.read (sys.lseek os fid (page_offset cfg page_id) SEEK_SET).2 fid cfg.PAGE_SIZE).2.2⟩
    else
      ⟨.ok (storeBuf data
          (sys.read (sys.lseek os fid (page_offset cfg page_id) SEEK_SET).2 fid cfg.PAGE_SIZE).2.1), dm,
        (sys.read (sys.lseek os fid (page_offset cfg page_id) SEEK_SET).2 fid cfg.PAGE_SIZE).2.2⟩

/-- The member `DiskManager::ReadFile`.  The value returned is the buffer
`data` of the caller after the call. -/
def ReadFile {σ : Type} (sys : Sys σ) (fid : Int) (data : List Byte) (size offset : Nat) (type : Int)
    (dm : DiskManager) (os : σ) : Ret (List Byte) σ :=
  match WSDB_ASSERT "DiskManager" "ReadFile()" (Map.find dm.fid_name_map_ fid).isSome
      "File not Opened" with
  | some e => ⟨.error e, dm, os⟩
  | none =>
    ⟨.ok (storeBuf data (sys.read (sys.lseek os fid (off_t_cast offset) type).2 fid size).2.1), dm,
      (sys.read (sys.lseek os fid (off_t_cast offset) type).2 fid size).2.2⟩

/-- The member `DiskManager::WriteFile`. -/
def WriteFile {σ : Type} (sys : Sys σ) (fid : Int) (data : List Byte) (size : Nat) (type : Int)
    (dm : DiskManager) (os : σ) : Ret Unit σ :=
  match WSDB_ASSERT "DiskManager" "WriteFile()" (Map.find dm.fid_name_map_ fid).isSome
      "File not Opened" with
  | some e => ⟨.error e, dm, os⟩
  | none =>
    match WSDB_ASSERT "DiskManager" "WriteFile()"
        (decide (type = SEEK_CUR) || decide (type = SEEK_SET) || decide (type = SEEK_END))
        "Invalid Type" with
    | some e => ⟨.error e, dm, os⟩
    | none => ⟨.ok (), dm, (sys.write (sys.lseek os fid 0 type).2 fid data size).2⟩

/-- The member `DiskManager::WriteLog`, whose body is empty. -/
def WriteLog {σ : Type} (_log_file _log_string : String) (dm : DiskManager) (os : σ) : Ret Unit σ :=
  ⟨.ok (), dm, os⟩

/-- The member `DiskManager::ReadLog`, whose body is empty: the string of the
caller is returned as it was. -/
def ReadLog {σ : Type} (_log_file log_string : String) (dm : DiskManager) (os : σ) : Ret String σ :=
  ⟨.ok log_string, dm, os⟩

/-- The member `DiskManager::GetFileId`. -/
def GetFileId (cfg : Config) (fname : String) (dm : DiskManager) : Int :=
  match Map.find dm.name_fid_map_ fname with
  | some fid => fid
  | none => cfg.INVALID_TABLE_ID

/-- The member `DiskManager::GetFileName`. -/
def GetFileName (fid : Int) (dm : DiskManager) : Except Abort String :=
  match Map.find dm.fid_name_map_ fid with
  | some name => .ok name
  | none => .error (.WSDBException .WSDB_FILE_NOT_OPEN "DiskManager" "GetFileName" ("fid: " ++ toString fid))

end DiskManager

/-! ## Sequences of calls -/

/-- One call of a member function of `DiskManager` with its arguments. -/
inductive Op
  | CreateFile (fname : String)
  | DestroyFile (fname : String)
  | OpenFile (fname : String)
  | CloseFile (fid : Int)
  | WritePage (fid page_id : Int) (data : List Byte)
  | ReadPage (fid page_id : Int) (data : List Byte)
  | ReadFile (fid : Int) (data : List Byte) (size offset : Nat) (type : Int)
  | WriteFile (fid : Int) (data : List Byte) (size : Nat) (type : Int)
  | WriteLog (log_file log_string : String)
  | ReadLog (log_file log_string : String)
  | GetFileId (fname : String)
  | GetFileName (fid : Int)
  | FileExists (fname : String)
  deriving DecidableEq

/-- The states after one call, whether it returned or not. -/
def step {σ : Type} (cfg : Config) (sys : Sys σ) (op : Op) (dm : DiskManager) (os : σ) :
    DiskManager × σ :=
  match op with
  | .CreateFile fname => ((DiskManager.CreateFile sys fname dm os).dm, (DiskManager.CreateFile sys fname dm os).os)
  | .DestroyFile fname => ((DiskManager.DestroyFile sys fname dm os).dm, (DiskManager.DestroyFile sys fname dm os).os)
  | .OpenFile fname => ((DiskManager.OpenFile sys fname dm os).dm, (DiskManager.OpenFile sys fname dm os).os)
  | .CloseFile fid => ((DiskManager.CloseFile sys fid dm os).dm, (DiskManager.CloseFile sys fid dm os).os)
  | .WritePage fid page_id data =>
    ((DiskManager.WritePage cfg sys fid page_id data dm os).dm,
     (DiskManager.WritePage cfg sys fid page_id data dm os).os)
  | .ReadPage fid page_id data =>
    ((DiskManager.ReadPage cfg sys fid page_id data dm os).dm,
     (DiskManager.ReadPage cfg sys fid page_id data dm os).os)
  | .ReadFile fid data size offset type =>
    ((DiskManager.ReadFile sys fid data size offset type dm os).dm,
     (DiskManager.ReadFile sys fid data size offset type dm os).os)
  | .WriteFile fid data size type =>
    ((DiskManager.WriteFile sys fid data size type dm os).dm,
     (DiskManager.WriteFile sys fid data size type dm os).os)
  | .WriteLog log_file log_string =>
    ((DiskManager.WriteLog log_file log_string dm os).dm, (DiskManager.WriteLog log_file log_string dm os).os)
  | .ReadLog log_file log_string =>
    ((DiskManager.ReadLog log_file log_string dm os).dm, (DiskManager.ReadLog log_file log_string dm os).os)
  | .GetFileId _ => (dm, os)
  | .GetFileName _ => (dm, os)
  | .FileExists _ => (dm, os)

/-- The states after a sequence of calls, made one after the other. -/
def run {σ : Type} (cfg : Config) (sys : Sys σ) : List Op → DiskManager → σ → DiskManager × σ
  | [], dm, os => (dm, os)
  | op :: ops, dm, os => run cfg sys ops (step cfg sys op dm os).1 (step cfg sys op dm os).2

/-- Whether the call is a `CloseFile`. -/
def Op.isClose : Op → Bool
  | .CloseFile _ => true
  | _ => false

/-- Whether the call is an `OpenFile`. -/
def Op.isOpen : Op → Bool
  | .OpenFile _ => true
  | _ => false

/-- The assumption on the outside world under which `OpenFile fname` is called
in the state `dm`, `os`: when the call reaches `open`, the descriptor that
`open` returns is -1 or is not a key of `fid_name_map_`. -/
def openFresh {σ : Type} (sys : Sys σ) (fname : String) (dm : DiskManager) (os : σ) : Bool :=
  !(DiskManager.FileExists sys fname os) ||
  (Map.find dm.name_fid_map_ fname).isSome ||
  decide ((sys.open_rdwr os fname).1 = -1) ||
  (Map.find dm.fid_name_map_ (sys.open_rdwr os fname).1).isNone

/-- The assumption `openFresh` at every `OpenFile` of a sequence of calls that
starts in the state `dm`, `os`. -/
def opensFresh {σ : Type} (cfg : Config) (sys : Sys σ) : List Op → DiskManager → σ → Bool
  | [], _, _ => true
  | op :: ops, dm, os =>
    (match op with
     | .OpenFile fname => openFresh sys fname dm os
     | _ => true) &&
    opensFresh cfg sys ops (step cfg sys op dm os).1 (step cfg sys op dm os).2

/-- Whether the call, made in the state `dm`, `os`, is an `OpenFile` that
returns the id `fid`. -/
def Op.returnsId {σ : Type} (sys : Sys σ) (fid : Int) (op : Op) (dm : DiskManager) (os : σ) : Bool :=
  match op with
  | .OpenFile fname =>
    match (DiskManager.OpenFile sys fname dm os).result with
    | .ok fd => decide (fd = fid)
    | .error _ => false
  | _ => false

/-- Whether the call, made in the state `dm`, `os`, is an `OpenFile` of the
name `name` that returns. -/
def Op.opensName {σ : Type} (sys : Sys σ) (name : String) (op : Op) (dm : DiskManager) (os : σ) :
    Bool :=
  match op with
  | .OpenFile fname =>
    match (DiskManager.OpenFile sys fname dm os).result with
    | .ok _ => decide (fname = name)
    | .error _ => false
  | _ => false

/-- No `OpenFile` of the sequence of calls, started in the state `dm`, `os`,
returns the id `fid`. -/
def idNotReturned {σ : Type} (cfg : Config) (sys : Sys σ) (fid : Int) :
    List Op → DiskManager → σ → Bool
  | [], _, _ => true
  | op :: ops, dm, os =>
    !(op.returnsId sys fid dm os) &&
    idNotReturned cfg sys fid ops (step cfg sys op dm os).1 (step cfg sys op dm os).2

/-- No `OpenFile` of the name `name` in the sequence of calls, started in the
state `dm`, `os`, returns. -/
def nameNotOpened {σ : Type} (cfg : Config) (sys : Sys σ) (name : String) :
    List Op → DiskManager → σ → Bool
  | [], _, _ => true
  | op :: ops, dm, os =>
    !(op.opensName sys name dm os) &&
    nameNotOpened cfg sys name ops (step cfg sys op dm os).1 (step cfg sys op dm os).2

/-- The two maps are inverse to each other: a name is mapped to an id exactly
when the id is mapped to the name. -/
def MutualInverse (dm : DiskManager) : Prop :=
  ∀ (name : String) (fid : Int),
    Map.find dm.name_fid_map_ name = some fid ↔ Map.find dm.fid_name_map_ fid = some name

/-! ## A file model: byte sequences with a seek position -/

/-- State of the file model.

* `dir` maps a path to the number of its file;
* `inodes` maps the number of a file to its bytes;
* `fds` maps an open descriptor to the number of its file and its position;
* `next_ino` is the number given to the next file that is created;
* `nofile` bounds the descriptors (descriptors 0, 1 and 2 belong to the
  standard streams, `open` returns the lowest free one from 3 on);
* `fsize` is the largest size to which a file may grow. -/
structure Posix where
  dir : List (String × Nat)
  inodes : List (Nat × List Byte)
  fds : List (Int × Nat × Nat)
  next_ino : Nat
  nofile : Nat
  fsize : Nat
  deriving DecidableEq

/-- The bytes of a file after `chunk` was written at position `pos`: a gap
between the old end and `pos` is filled with zero bytes, and a write of no
byte changes nothing. -/
def writeAt (content : List Byte) (pos : Nat) (chunk : List Byte) : List Byte :=
  if chunk.length = 0 then content
  else content.take pos ++ List.replicate (pos - content.length) (0 : Byte) ++ chunk
    ++ content.drop (pos + chunk.length)

namespace Posix

/-- The bytes of the file that descriptor `fd` is open on. -/
def fileBytes (os : Posix) (fd : Int) : Option (List Byte) :=
  match Map.find os.fds fd with
  | none => none
  | some e => Map.find os.inodes e.1

/-- The lowest free descriptor from 3 on, when there is one below `nofile`. -/
def lowestFree (os : Posix) : Option Nat :=
  (List.range os.nofile).find? (fun n => decide (3 ≤ n) && (Map.find os.fds (n : Int)).isNone)

/-- Model of `std::filesystem::exists`. -/
def fs_exists (os : Posix) (path : String) : Bool :=
  (Map.find os.dir path).isSome

/-- Model of `std::ofstream file(path)` followed by `file.close()`: the empty
path cannot be opened, an existing file is truncated, and a missing one is
created empty. -/
def ofstream (os : Posix) (path : String) : Bool × Posix :=
  if path = "" then (false, os)
  else
    match Map.find os.dir path with
    | some ino => (true, { os with inodes := Map.set os.inodes ino [] })
    | none =>
      (true, { os with dir := Map.set os.dir path os.next_ino,
                       inodes := Map.set os.inodes os.next_ino [],
                       next_ino := os.next_ino + 1 })

/-- Model of `unlink(path)`: the name is removed; the bytes stay reachable
through the descriptors that are open on the file. -/
def unlink (os : Posix) (path : String) : Int × Posix :=
  match Map.find os.dir path with
  | none => (-1, os)
  | some _ => (0, { os with dir := Map.erase os.dir path })

/-- Model of `open(path, O_RDWR)`: the lowest free descriptor, positioned at
the start of the file. -/
def open_rdwr (os : Posix) (path : String) : Int × Posix :=
  match Map.find os.dir path with
  | none => (-1, os)
  | some ino =>
    match lowestFree os with
    | none => (-1, os)
    | some n => ((n : Int), { os with fds := Map.set os.fds (n : Int) (ino, 0) })

/-- Model of `close(fd)`. -/
def close (os : Posix) (fd : Int) : Int × Posix :=
  match Map.find os.fds fd with
  | none => (-1, os)
  | some _ => (0, { os with fds := Map.erase os.fds fd })

/-- The position from which `lseek` counts, for a descriptor at `pos` on a
file of `len` bytes; `none` for an unknown origin. -/
def seekBase (whence : Int) (pos len : Nat) : Option Int :=
  if whence = SEEK_SET then some 0
  else if whence = SEEK_CUR then some (pos : Int)
  else if whence = SEEK_END then some (len : Int)
  else none

/-- Model of `lseek(fd, off, whence)`: it fails, and moves nothing, for an
unknown descriptor, an unknown origin or a negative target. -/
def lseek (os : Posix) (fd off whence : Int) : Int × Posix :=
  match Map.find os.fds fd with
  | none => (-1, os)
  | some e =>
    match Map.find os.inodes e.1 with
    | none => (-1, os)
    | some content =>
      match seekBase whence e.2 content.length with
      | none => (-1, os)
      | some base =>
        if base + off < 0 then (-1, os)
        else (base + off, { os with fds := Map.set os.fds fd (e.1, (base + off).toNat) })

/-- Model of `write(fd, data, n)`: the first `n` bytes of `data`, or as many
of them as fit below `fsize`, are written at the position, which advances. -/
def write (os : Posix) (fd : Int) (data : List Byte) (n : Nat) : Int × Posix :=
  match Map.find os.fds fd with
  | none => (-1, os)
  | some e =>
    match Map.find os.inodes e.1 with
    | none => (-1, os)
    | some content =>
      if n ≠ 0 ∧ (data.take (min n (os.fsize - e.2))).length = 0 then (-1, os)
      else
        (((data.take (min n (os.fsize - e.2))).length : Int),
         { os with
           inodes := Map.set os.inodes e.1 (writeAt content e.2 (data.take (min n (os.fsize - e.2)))),
           fds := Map.set os.fds fd (e.1, e.2 + (data.take (min n (os.fsize - e.2))).length) })

/-- Model of `read(fd, buf, n)`: up to `n` bytes from the position on, fewer
or none at the end of the file; the position advances. -/
def read (os : Posix) (fd : Int) (n : Nat) : Int × List Byte × Posix :=
  match Map.find os.fds fd with
  | none => (-1, [], os)
  | some e =>
    match Map.find os.inodes e.1 with
    | none => (-1, [], os)
    | some content =>
      ((((content.drop e.2).take n).length : Int), (content.drop e.2).take n,
       { os with fds := Map.set os.fds fd (e.1, e.2 + ((content.drop e.2).take n).length) })

/-- A file system with no file and no open descriptor. -/
def init (nofile fsize : Nat) : Posix :=
  { dir := [], inodes := [], fds := [], next_ino := 0, nofile := nofile, fsize := fsize }

end Posix

/-- The file model as an instance of the operating system interface. -/
def posix : Sys Posix :=
  { fs_exists := Posix.fs_exists
    ofstream := Posix.ofstream
    unlink := Posix.unlink
    open_rdwr := Posix.open_rdwr
    close := Posix.close
    lseek := Posix.lseek
    write := Posix.write
    read := Posix.read }

/-- Every descriptor that the disk manager tracks is open in the file model. -/
def DescriptorsOpen (dm : DiskManager) (os : Posix) : Prop :=
  ∀ fid : Int, (Map.find dm.fid_name_map_ fid).isSome = true → (Map.find os.fds fid).isSome = true

/-! ## Executors -/

/-- The tags passed to the constructor of `AbstractExecutor` in the two
executor sources. -/
inductive ExecutorType
  | Basic
  | DML
  deriving DecidableEq

/-- Modelled from the spec: the field types are declared in headers that are
not among the sources.  The specification gives them as an enumeration of
`INT` and further types; `TYPE_OTHER` stands for the further ones. -/
inductive FieldType
  | TYPE_INT
  | TYPE_OTHER (code : Nat)
  deriving DecidableEq

/-- Modelled from the spec: the description of a field (name, size in bytes,
type), with the member names that the constructor of `DeleteExecutor`
initialises. -/
structure FieldSchema where
  field_name_ : String
  field_size_ : Nat
  field_type_ : FieldType
  deriving DecidableEq

/-- Modelled from the spec: `RTField` is declared in a header that is not
among the sources; the constructor of `DeleteExecutor` initialises its member
`field_`. -/
structure RTField where
  field_ : FieldSchema
  deriving DecidableEq

/-- The value of a default constructed `RTField`. -/
def RTField.default : RTField :=
  { field_ := { field_name_ := "", field_size_ := 0, field_type_ := FieldType.TYPE_OTHER 0 } }

/-- Modelled from the spec: a record schema is the ordered sequence of its
fields; `RecordSchema(fields)` keeps the fields in their order. -/
structure RecordSchema where
  fields_ : List RTField
  deriving DecidableEq

/-- The data members of `DeleteExecutor` that `executor_delete.cpp` names:
the tag handed to `AbstractExecutor`, `out_schema_` (a `std::unique_ptr`,
`none` when null), `child_`, `tbl_`, `indexes_` and `is_end_`.  The types of
the child executor, of the table handle and of the index handles are
parameters: the source never looks into them. -/
structure DeleteExecutor (χ τ ι : Type) where
  type_ : ExecutorType
  out_schema_ : Option RecordSchema
  child_ : χ
  tbl_ : τ
  indexes_ : List ι
  is_end_ : Bool
  deriving DecidableEq

/-- The constructor `DeleteExecutor::DeleteExecutor`. -/
def DeleteExecutor.new {χ τ ι : Type} (cfg : Config) (child : χ) (tbl : τ) (indexes : List ι) :
    DeleteExecutor χ τ ι :=
  { type_ := ExecutorType.DML
    child_ := child
    tbl_ := tbl
    indexes_ := indexes
    is_end_ := false
    out_schema_ := some (RecordSchema.mk
      ((List.replicate 1 RTField.default).set 0
        { field_ := { field_name_ := "deleted"
                      field_size_ := cfg.sizeof_int
                      field_type_ := FieldType.TYPE_INT } })) }

/-- The member `DeleteExecutor::Init`. -/
def DeleteExecutor.Init {χ τ ι : Type} (self : DeleteExecutor χ τ ι) :
    Except Abort Unit × DeleteExecutor χ τ ι :=
  (.error (WSDB_FETAL "DeleteExecutor" "Init()" "DeleteExecutor does not support Init"), self)

/-- The member `DeleteExecutor::Next`. -/
def DeleteExecutor.Next {χ τ ι : Type} (self : DeleteExecutor χ τ ι) :
    Except Abort Unit × DeleteExecutor χ τ ι :=
  (.error (WSDB_STUDENT_TODO "L2" "t1" "DeleteExecutor" "Next()"), self)

/-- The member `DeleteExecutor::IsEnd`, a `const` member. -/
def DeleteExecutor.IsEnd {χ τ ι : Type} (_self : DeleteExecutor χ τ ι) : Except Abort Bool :=
  .error (WSDB_STUDENT_TODO "L2" "t1" "DeleteExecutor" "IsEnd()")

/-- The accessor `GetOutSchema` that `DeleteExecutor` inherits: the schema
held by `out_schema_`. -/
def DeleteExecutor.GetOutSchema {χ τ ι : Type} (self : DeleteExecutor χ τ ι) : Option RecordSchema :=
  self.out_schema_

/-- The data members of `SeqScanExecutor` that `executor_seqscan.cpp` names:
the tag handed to `AbstractExecutor` and `tab_`. -/
structure SeqScanExecutor (τ : Type) where
  type_ : ExecutorType
  tab_ : τ
  deriving DecidableEq

/-- The constructor `SeqScanExecutor::SeqScanExecutor`. -/
def SeqScanExecutor.new {τ : Type} (tab : τ) : SeqScanExecutor τ :=
  { type_ := ExecutorType.Basic, tab_ := tab }

/-- The member `SeqScanExecutor::Init`. -/
def SeqScanExecutor.Init {τ : Type} (self : SeqScanExecutor τ) :
    Except Abort Unit × SeqScanExecutor τ :=
  (.error (WSDB_STUDENT_TODO "L2" "t1" "SeqScanExecutor" "Init()"), self)

/-- The member `SeqScanExecutor::Next`. -/
def SeqScanExecutor.Next {τ : Type} (self : SeqScanExecutor τ) :
    Except Abort Unit × SeqScanExecutor τ :=
  (.error (WSDB_STUDENT_TODO "L2" "t1" "SeqScanExecutor" "Next()"), self)

/-- The member `SeqScanExecutor::IsEnd`, a `const` member. -/
def SeqScanExecutor.IsEnd {τ : Type} (_self : SeqScanExecutor τ) : Except Abort Bool :=
  .error (WSDB_STUDENT_TODO "L2" "t1" "SeqScanExecutor" "IsEnd()")

/-- The member `SeqScanExecutor::GetOutSchema`; `GetSchema` is the accessor of
the table handle. -/
def SeqScanExecutor.GetOutSchema {τ : Type} (GetSchema : τ → RecordSchema)
    (self : SeqScanExecutor τ) : RecordSchema :=
  GetSchema self.tab_

/-! ## Concrete states

Small instances on which the definitions above are evaluated. -/

/-- A configuration with pages of four bytes. -/
def demo_cfg : Config :=
  { PAGE_SIZE := 4, INVALID_TABLE_ID := -1, sizeof_int := 4 }

/-- The file model with at most 8 descriptors and files of at most 64 bytes,
holding no file. -/
def demo_init : Posix :=
  Posix.init 8 64

/-- The state after the file "a" was created. -/
def demo_created : DiskManager × Posix :=
  run demo_cfg posix [Op.CreateFile "a"] DiskManager.empty demo_init

/-- The state after the file "a" was created and opened (with descriptor 3). -/
def demo_opened : DiskManager × Posix :=
  run demo_cfg posix [Op.CreateFile "a", Op.OpenFile "a"] DiskManager.empty demo_init

/-- The state after the file "a" was created, opened and removed again while
it was open. -/
def demo_destroyed : DiskManager × Posix :=
  run demo_cfg posix [Op.CreateFile "a", Op.OpenFile "a", Op.DestroyFile "a"] DiskManager.empty
    demo_init

/-- A sequence of calls over two files. -/
def demo_ops : List Op :=
  [Op.CreateFile "a", Op.CreateFile "b", Op.OpenFile "a", Op.OpenFile "b", Op.OpenFile "a",
   Op.WritePage 3 0 [1, 2, 3, 4], Op.CloseFile 3, Op.CloseFile 3, Op.GetFileId "a",
   Op.GetFileName 4, Op.DestroyFile "b"]

/-- A delete executor whose child, written as the list of the records it has
yet to produce, produces the one record 7, over a table that stores this
record and one index that holds an entry for it. -/
def demo_delete : DeleteExecutor (List Nat) (List Nat) (List Nat) :=
  DeleteExecutor.new demo_cfg [7] [7] [[7]]

/-- A scan executor over a table, written as the list of its stored records,
that stores no record. -/
def demo_scan : SeqScanExecutor (List Nat) :=
  SeqScanExecutor.new []

/-- The state after the files "a" and "c" were created. -/
def demo_two_files : DiskManager × Posix :=
  run demo_cfg posix [Op.CreateFile "a", Op.CreateFile "c"] DiskManager.empty demo_init

/-- The state after the files "a" and "c" were created and "a" was opened
(with descriptor 3). -/
def demo_a_opened : DiskManager × Posix :=
  run demo_cfg posix [Op.CreateFile "a", Op.CreateFile "c", Op.OpenFile "a"] DiskManager.empty
    demo_init

/-- The state after the files "a" and "c" were created and "a" was opened
and closed again. -/
def demo_a_closed : DiskManager × Posix :=
  run demo_cfg posix [Op.CreateFile "a", Op.CreateFile "c", Op.OpenFile "a", Op.CloseFile 3]
    DiskManager.empty demo_init

/-- The state after the files "a" and "c" were created, "a" was opened and
closed again, and "c" was opened. -/
def demo_c_opened : DiskManager × Posix :=
  run demo_cfg posix
    [Op.CreateFile "a", Op.CreateFile "c", Op.OpenFile "a", Op.CloseFile 3, Op.OpenFile "c"]
    DiskManager.empty demo_init

/-! ## Facts about association maps -/

namespace Map

theorem find_insert_self {κ ν : Type} [DecidableEq κ] (m : List (κ × ν)) (k : κ) (v : ν)
    (h : find m k = none) : find (insert m k v) k = some v := by
  simp [insert, h, find]

theorem find_insert_of_ne {κ ν : Type} [DecidableEq κ] (m : List (κ × ν)) (k k1 : κ) (v : ν)
    (h : k ≠ k1) : find (insert m k v) k1 = find m k1 := by
  unfold insert
  cases hk : find m k with
  | none => simp [find, h]
  | some w => simp

theorem find_insert_of_some {κ ν : Type} [DecidableEq κ] (m : List (κ × ν)) (k k1 : κ) (v w : ν)
    (h : find m k1 = some w) : find (insert m k v) k1 = some w := by
  by_cases hk : k = k1
  · subst hk
    simp [insert, h]
  · rw [find_insert_of_ne m k k1 v hk, h]

theorem find_erase_self {κ ν : Type} [DecidableEq κ] (m : List (κ × ν)) (k : κ) :
    find (erase m k) k = none := by
  induction m with
  | nil => rfl
  | cons e m ih =>
    obtain ⟨k1, v⟩ := e
    by_cases h : k1 = k
    · simp [erase, h, ih]
    · simp [erase, h, find, ih]

theorem find_erase_of_ne {κ ν : Type} [DecidableEq κ] (m : List (κ × ν)) (k k1 : κ)
    (h : k ≠ k1) : find (erase m k) k1 = find m k1 := by
  induction m with
  | nil => rfl
  | cons e m ih =>
    obtain ⟨k2, v⟩ := e
    by_cases h2 : k2 = k
    · subst h2
      simp [erase, find, h, ih]
    · by_cases h3 : k2 = k1
      · subst h3
        simp [erase, find, h2]
      · simp [erase, find, h2, h3, ih]

theorem find_erase_of_none {κ ν : Type} [DecidableEq κ] (m : List (κ × ν)) (k k1 : κ)
    (h : find m k1 = none) : find (erase m k) k1 = none := by
  by_cases hk : k = k1
  · subst hk
    exact find_erase_self m k
  · rw [find_erase_of_ne m k k1 hk, h]

theorem find_set_self {κ ν : Type} [DecidableEq κ] (m : List (κ × ν)) (k : κ) (v : ν) :
    find (set m k v) k = some v := by
  simp [set, find]

theorem find_set_of_ne {κ ν : Type} [DecidableEq κ] (m : List (κ × ν)) (k k1 : κ) (v : ν)
    (h : k ≠ k1) : find (set m k v) k1 = find m k1 := by
  simp [set, find, h, find_erase_of_ne m k k1 h]

end Map


/-! ## Existence preconditions -/

/-- C3 (existence preconditions).  In every state of the disk manager and of
the outside world: when no file of the name exists, `OpenFile` and
`DestroyFile` throw `WSDB_FILE_NOT_EXISTS`, and this also when the name is
still tracked as open, where `OpenFile` does not throw `WSDB_FILE_REOPEN`;
when a file of the name exists, `CreateFile` throws `WSDB_FILE_EXISTS`.  In
each case both maps and the outside world are the ones from before the call. -/
theorem existence_preconditions {σ : Type} (sys : Sys σ) (dm : DiskManager) (os : σ)
    (fname : String) :
    (sys.fs_exists os fname = false →
      DiskManager.OpenFile sys fname dm os =
        ⟨.error (.WSDBException .WSDB_FILE_NOT_EXISTS "DiskManager" "OpenFile" fname), dm, os⟩ ∧
      DiskManager.DestroyFile sys fname dm os =
        ⟨.error (.WSDBException .WSDB_FILE_NOT_EXISTS "DiskManager" "DestroyFile" fname), dm, os⟩ ∧
      ((Map.find dm.name_fid_map_ fname).isSome = true →
        (DiskManager.OpenFile sys fname dm os).result ≠
          .error (.WSDBException .WSDB_FILE_REOPEN "DiskManager" "OpenFile" fname))) ∧
    (sys.fs_exists os fname = true →
      DiskManager.CreateFile sys fname dm os =
        ⟨.error (.WSDBException .WSDB_FILE_EXISTS "DiskManager" "CreateFile" fname), dm, os⟩) := by
  refine ⟨fun h => ⟨?_, ?_, fun _ => ?_⟩, fun h => ?_⟩
  · simp [DiskManager.OpenFile, DiskManager.FileExists, h]
  · simp [DiskManager.DestroyFile, DiskManager.FileExists, h]
  · simp [DiskManager.OpenFile, DiskManager.FileExists, h]
  · simp [DiskManager.CreateFile, DiskManager.FileExists, h]

/-! ## Seek origins of WriteFile -/

/-- C6 (seek-origin rejection).  For a tracked id, any data and size: with a
`type` that is none of `SEEK_CUR`, `SEEK_SET`, `SEEK_END`, `WriteFile` leaves
by the failed assertion "Invalid Type" with both maps and the outside world
(the bytes and the position of every file) as they were, so before any seek
or write; with one of the three origins it passes the check, seeks, writes
and returns. -/
theorem WriteFile_seek_origin {σ : Type} (sys : Sys σ) (dm : DiskManager) (os : σ) (fid : Int)
    (data : List Byte) (size : Nat) (type : Int)
    (htracked : (Map.find dm.fid_name_map_ fid).isSome = true) :
    ((type ≠ SEEK_CUR ∧ type ≠ SEEK_SET ∧ type ≠ SEEK_END) →
      DiskManager.WriteFile sys fid data size type dm os =
        ⟨.error (.FETAL "DiskManager" "WriteFile()" "Invalid Type"), dm, os⟩) ∧
    ((type = SEEK_CUR ∨ type = SEEK_SET ∨ type = SEEK_END) →
      DiskManager.WriteFile sys fid data size type dm os =
        ⟨.ok (), dm, (sys.write (sys.lseek os fid 0 type).2 fid data size).2⟩) := by
  constructor
  · rintro ⟨h1, h2, h3⟩
    simp [DiskManager.WriteFile, WSDB_ASSERT, htracked, h1, h2, h3]
  · intro h
    have hc : (decide (type = SEEK_CUR) || decide (type = SEEK_SET) || decide (type = SEEK_END))
        = true := by
      rcases h with h | h | h <;> simp [h]
    simp only [DiskManager.WriteFile, WSDB_ASSERT, htracked, hc, if_true]

/-! ## Calls that leave the maps alone -/

theorem CreateFile_dm {σ : Type} (sys : Sys σ) (fname : String) (dm : DiskManager) (os : σ) :
    (DiskManager.CreateFile sys fname dm os).dm = dm := by
  unfold DiskManager.CreateFile
  split_ifs <;> rfl

theorem DestroyFile_dm {σ : Type} (sys : Sys σ) (fname : String) (dm : DiskManager) (os : σ) :
    (DiskManager.DestroyFile sys fname dm os).dm = dm := by
  unfold DiskManager.DestroyFile
  split_ifs <;> rfl

theorem WritePage_dm {σ : Type} (cfg : Config) (sys : Sys σ) (fid page_id : Int) (data : List Byte)
    (dm : DiskManager) (os : σ) :
    (DiskManager.WritePage cfg sys fid page_id data dm os).dm = dm := by
  unfold DiskManager.WritePage
  split
  · rfl
  · split_ifs <;> rfl

theorem ReadPage_dm {σ : Type} (cfg : Config) (sys : Sys σ) (fid page_id : Int) (data : List Byte)
    (dm : DiskManager) (os : σ) :
    (DiskManager.ReadPage cfg sys fid page_id data dm os).dm = dm := by
  unfold DiskManager.ReadPage
  split
  · rfl
  · split_ifs <;> rfl

theorem ReadFile_dm {σ : Type} (sys : Sys σ) (fid : Int) (data : List Byte) (size offset : Nat)
    (type : Int) (dm : DiskManager) (os : σ) :
    (DiskManager.ReadFile sys fid data size offset type dm os).dm = dm := by
  unfold DiskManager.ReadFile
  split <;> rfl

theorem WriteFile_dm {σ : Type} (sys : Sys σ) (fid : Int) (data : List Byte) (size : Nat)
    (type : Int) (dm : DiskManager) (os : σ) :
    (DiskManager.WriteFile sys fid data size type dm os).dm = dm := by
  unfold DiskManager.WriteFile
  split
  · rfl
  · split <;> rfl

/-! ## What a successful OpenFile did -/

theorem OpenFile_ok {σ : Type} (sys : Sys σ) (fname : String) (dm : DiskManager) (os : σ)
    (fid : Int) (h : (DiskManager.OpenFile sys fname dm os).result = .ok fid) :
    sys.fs_exists os fname = true ∧ Map.find dm.name_fid_map_ fname = none ∧
    (sys.open_rdwr os fname).1 = fid ∧ fid ≠ -1 ∧
    (DiskManager.OpenFile sys fname dm os).dm =
      { name_fid_map_ := Map.insert dm.name_fid_map_ fname fid,
        fid_name_map_ := Map.insert dm.fid_name_map_ fid fname } ∧
    (DiskManager.OpenFile sys fname dm os).os = (sys.open_rdwr os fname).2 := by
  unfold DiskManager.OpenFile DiskManager.FileExists at h ⊢
  by_cases h1 : sys.fs_exists os fname = true
  · cases h2 : Map.find dm.name_fid_map_ fname with
    | some w => simp [h1, h2] at h
    | none =>
      by_cases h3 : (sys.open_rdwr os fname).1 = -1
      · simp [h1, h2, h3] at h
      · simp only [h1, h2, h3, Bool.not_true, Bool.false_eq_true, if_false, Option.isSome_none,
          Except.ok.injEq] at h
        subst h
        simp [h1, h2, h3]
  · simp [h1] at h

/-- An `OpenFile` that does not return leaves both maps as they were. -/
theorem OpenFile_error_dm {σ : Type} (sys : Sys σ) (fname : String) (dm : DiskManager) (os : σ)
    (e : Abort) (h : (DiskManager.OpenFile sys fname dm os).result = .error e) :
    (DiskManager.OpenFile sys fname dm os).dm = dm := by
  unfold DiskManager.OpenFile at h ⊢
  split_ifs at h ⊢ <;> rfl

/-- After any `OpenFile`, a name that was tracked is tracked with the same id. -/
theorem OpenFile_keeps_name {σ : Type} (sys : Sys σ) (fname : String) (dm : DiskManager) (os : σ)
    (name : String) (fid : Int) (h : Map.find dm.name_fid_map_ name = some fid) :
    Map.find (DiskManager.OpenFile sys fname dm os).dm.name_fid_map_ name = some fid := by
  unfold DiskManager.OpenFile
  split_ifs
  · exact h
  · exact h
  · exact h
  · exact Map.find_insert_of_some _ _ _ _ _ h

/-- A call other than `CloseFile` keeps every tracked name with its id. -/
theorem step_keeps_name {σ : Type} (cfg : Config) (sys : Sys σ) (op : Op) (dm : DiskManager)
    (os : σ) (name : String) (fid : Int) (hop : op.isClose = false)
    (h : Map.find dm.name_fid_map_ name = some fid) :
    Map.find (step cfg sys op dm os).1.name_fid_map_ name = some fid := by
  cases op with
  | CloseFile f => simp [Op.isClose] at hop
  | OpenFile fname => exact OpenFile_keeps_name sys fname dm os name fid h
  | CreateFile fname => simpa [step, CreateFile_dm] using h
  | DestroyFile fname => simpa [step, DestroyFile_dm] using h
  | WritePage f p d => simpa [step, WritePage_dm] using h
  | ReadPage f p d => simpa [step, ReadPage_dm] using h
  | ReadFile f d s o t => simpa [step, ReadFile_dm] using h
  | WriteFile f d s t => simpa [step, WriteFile_dm] using h
  | WriteLog a b => simpa [step, DiskManager.WriteLog] using h
  | ReadLog a b => simpa [step, DiskManager.ReadLog] using h
  | GetFileId a => simpa [step] using h
  | GetFileName a => simpa [step] using h
  | FileExists a => simpa [step] using h

/-- A sequence of calls without `CloseFile` keeps every tracked name with its
id. -/
theorem run_keeps_name {σ : Type} (cfg : Config) (sys : Sys σ) (ops : List Op) :
    ∀ (dm : DiskManager) (os : σ) (name : String) (fid : Int),
      (ops.all fun op => !op.isClose) = true →
      Map.find dm.name_fid_map_ name = some fid →
      Map.find (run cfg sys ops dm os).1.name_fid_map_ name = some fid := by
  induction ops with
  | nil => intro dm os name fid _ h; exact h
  | cons op ops ih =>
    intro dm os name fid hall h
    simp only [List.all_cons, Bool.and_eq_true, Bool.not_eq_true'] at hall
    exact ih _ _ name fid hall.2 (step_keeps_name cfg sys op dm os name fid hall.1 h)

/-- A call other than `OpenFile` tracks no id and no name that was not
tracked before. -/
theorem step_keeps_untracked {σ : Type} (cfg : Config) (sys : Sys σ) (op : Op) (dm : DiskManager)
    (os : σ) (name : String) (fid : Int) (hop : op.isOpen = false)
    (h : Map.find dm.name_fid_map_ name = none ∧ Map.find dm.fid_name_map_ fid = none) :
    Map.find (step cfg sys op dm os).1.name_fid_map_ name = none ∧
    Map.find (step cfg sys op dm os).1.fid_name_map_ fid = none := by
  cases op with
  | OpenFile fname => simp [Op.isOpen] at hop
  | CloseFile f =>
    simp only [step, DiskManager.CloseFile]
    split
    · exact h
    · exact ⟨Map.find_erase_of_none _ _ _ h.1, Map.find_erase_of_none _ _ _ h.2⟩
  | CreateFile fname => simpa [step, CreateFile_dm] using h
  | DestroyFile fname => simpa [step, DestroyFile_dm] using h
  | WritePage f p d => simpa [step, WritePage_dm] using h
  | ReadPage f p d => simpa [step, ReadPage_dm] using h
  | ReadFile f d s o t => simpa [step, ReadFile_dm] using h
  | WriteFile f d s t => simpa [step, WriteFile_dm] using h
  | WriteLog a b => simpa [step, DiskManager.WriteLog] using h
  | ReadLog a b => simpa [step, DiskManager.ReadLog] using h
  | GetFileId a => simpa [step] using h
  | GetFileName a => simpa [step] using h
  | FileExists a => simpa [step] using h

/-- A sequence of calls without `OpenFile` tracks no id and no name that was
not tracked before. -/
theorem run_keeps_untracked {σ : Type} (cfg : Config) (sys : Sys σ) (ops : List Op) :
    ∀ (dm : DiskManager) (os : σ) (name : String) (fid : Int),
      (ops.all fun op => !op.isOpen) = true →
      Map.find dm.name_fid_map_ name = none ∧ Map.find dm.fid_name_map_ fid = none →
      Map.find (run cfg sys ops dm os).1.name_fid_map_ name = none ∧
      Map.find (run cfg sys ops dm os).1.fid_name_map_ fid = none := by
  induction ops with
  | nil => intro dm os name fid _ h; exact h
  | cons op ops ih =>
    intro dm os name fid hall h
    simp only [List.all_cons, Bool.and_eq_true, Bool.not_eq_true'] at hall
    exact ih _ _ name fid hall.2 (step_keeps_untracked cfg sys op dm os name fid hall.1 h)

/-! ## The branches of OpenFile and CloseFile -/

theorem OpenFile_of_tracked {σ : Type} (sys : Sys σ) (fname : String) (dm : DiskManager) (os : σ)
    (fid : Int) (hex : sys.fs_exists os fname = true)
    (h : Map.find dm.name_fid_map_ fname = some fid) :
    DiskManager.OpenFile sys fname dm os =
      ⟨.error (.WSDBException .WSDB_FILE_REOPEN "DiskManager" "OpenFile" fname), dm, os⟩ := by
  simp [DiskManager.OpenFile, DiskManager.FileExists, hex, h]

theorem OpenFile_of_untracked {σ : Type} (sys : Sys σ) (fname : String) (dm : DiskManager) (os : σ)
    (hex : sys.fs_exists os fname = true) (h : Map.find dm.name_fid_map_ fname = none)
    (hfd : (sys.open_rdwr os fname).1 ≠ -1) :
    DiskManager.OpenFile sys fname dm os =
      ⟨.ok (sys.open_rdwr os fname).1,
       { name_fid_map_ := Map.insert dm.name_fid_map_ fname (sys.open_rdwr os fname).1,
         fid_name_map_ := Map.insert dm.fid_name_map_ (sys.open_rdwr os fname).1 fname },
       (sys.open_rdwr os fname).2⟩ := by
  simp [DiskManager.OpenFile, DiskManager.FileExists, hex, h, hfd]

theorem CloseFile_of_tracked {σ : Type} (sys : Sys σ) (fid : Int) (dm : DiskManager) (os : σ)
    (name : String) (h : Map.find dm.fid_name_map_ fid = some name) :
    DiskManager.CloseFile sys fid dm os =
      ⟨.ok (),
       { name_fid_map_ := Map.erase dm.name_fid_map_ name,
         fid_name_map_ := Map.erase dm.fid_name_map_ fid },
       (sys.close os fid).2⟩ := by
  simp [DiskManager.CloseFile, h]

theorem CloseFile_of_untracked {σ : Type} (sys : Sys σ) (fid : Int) (dm : DiskManager) (os : σ)
    (h : Map.find dm.fid_name_map_ fid = none) :
    DiskManager.CloseFile sys fid dm os =
      ⟨.error (.WSDBException .WSDB_FILE_NOT_OPEN "DiskManager" "CloseFile" ("fid: " ++ toString fid)),
       dm, os⟩ := by
  simp [DiskManager.CloseFile, h]

theorem WritePage_of_untracked {σ : Type} (cfg : Config) (sys : Sys σ) (fid page_id : Int)
    (data : List Byte) (dm : DiskManager) (os : σ) (h : Map.find dm.fid_name_map_ fid = none) :
    DiskManager.WritePage cfg sys fid page_id data dm os =
      ⟨.error (.FETAL "DiskManager" "WritePage()" ("fid: " ++ toString fid)), dm, os⟩ := by
  simp [DiskManager.WritePage, WSDB_ASSERT, h]

theorem ReadPage_of_untracked {σ : Type} (cfg : Config) (sys : Sys σ) (fid page_id : Int)
    (data : List Byte) (dm : DiskManager) (os : σ) (h : Map.find dm.fid_name_map_ fid = none) :
    DiskManager.ReadPage cfg sys fid page_id data dm os =
      ⟨.error (.FETAL "DiskManager" "ReadPage()" ("fid: " ++ toString fid)), dm, os⟩ := by
  simp [DiskManager.ReadPage, WSDB_ASSERT, h]

/-! ## Open exclusivity -/

/-- Open exclusivity over any behaviour of the system calls.  Let
`OpenFile fname` return `fid` in the state `dm`, `os`, where `fid` was not
tracked before the call.

* After any calls other than `CloseFile`, started in any state of the outside
  world, a further `OpenFile fname` made while the file exists throws
  `WSDB_FILE_REOPEN` and leaves both maps and the outside world as they were.
* `CloseFile fid` then returns, and after it `OpenFile fname` returns the
  descriptor of the underlying `open` whenever the file exists and that
  `open` does not fail. -/
theorem OpenFile_exclusive_of_fresh {σ : Type} (cfg : Config) (sys : Sys σ) (dm : DiskManager) (os : σ)
    (fname : String) (fid : Int)
    (hopen : (DiskManager.OpenFile sys fname dm os).result = .ok fid)
    (hfresh : Map.find dm.fid_name_map_ fid = none) :
    (∀ (ops : List Op) (os1 : σ), (ops.all fun op => !op.isClose) = true →
      sys.fs_exists (run cfg sys ops (DiskManager.OpenFile sys fname dm os).dm os1).2 fname = true →
      DiskManager.OpenFile sys fname
          (run cfg sys ops (DiskManager.OpenFile sys fname dm os).dm os1).1
          (run cfg sys ops (DiskManager.OpenFile sys fname dm os).dm os1).2 =
        ⟨.error (.WSDBException .WSDB_FILE_REOPEN "DiskManager" "OpenFile" fname),
          (run cfg sys ops (DiskManager.OpenFile sys fname dm os).dm os1).1,
          (run cfg sys ops (DiskManager.OpenFile sys fname dm os).dm os1).2⟩) ∧
    (∀ os1 : σ,
      (DiskManager.CloseFile sys fid (DiskManager.OpenFile sys fname dm os).dm os1).result = .ok () ∧
      ∀ os2 : σ, sys.fs_exists os2 fname = true → (sys.open_rdwr os2 fname).1 ≠ -1 →
        (DiskManager.OpenFile sys fname
          (DiskManager.CloseFile sys fid (DiskManager.OpenFile sys fname dm os).dm os1).dm os2).result =
          .ok (sys.open_rdwr os2 fname).1) := by
  obtain ⟨_, hnone, _, _, hdm, _⟩ := OpenFile_ok sys fname dm os fid hopen
  have hn : Map.find (DiskManager.OpenFile sys fname dm os).dm.name_fid_map_ fname = some fid := by
    rw [hdm]; exact Map.find_insert_self _ _ _ hnone
  have hf : Map.find (DiskManager.OpenFile sys fname dm os).dm.fid_name_map_ fid = some fname := by
    rw [hdm]; exact Map.find_insert_self _ _ _ hfresh
  constructor
  · intro ops os1 hall hex
    have ht := run_keeps_name cfg sys ops (DiskManager.OpenFile sys fname dm os).dm os1 fname fid
      hall hn
    exact OpenFile_of_tracked sys fname _ _ fid hex ht
  · intro os1
    rw [CloseFile_of_tracked sys fid _ os1 fname hf]
    refine ⟨rfl, ?_⟩
    intro os2 hex hfd
    rw [OpenFile_of_untracked sys fname _ os2 hex (Map.find_erase_self _ _) hfd]

/-! ## Id invalidation -/

/-- Id invalidation over any behaviour of the system calls.  Let
`OpenFile fname` return `fid` in the state `dm`, `os`, where `fid` was not
tracked before the call.  Then `CloseFile fid`
returns, and after it and after any further calls other than `OpenFile`, in
any state of the outside world: `ReadPage` and `WritePage` on `fid` leave by
the failed assertion on the id, with the outside world untouched;
`GetFileName fid` and a further `CloseFile fid` throw `WSDB_FILE_NOT_OPEN`,
the latter with maps and outside world untouched; and `GetFileId fname` is
`INVALID_TABLE_ID`. -/
theorem CloseFile_invalidates_id_of_fresh {σ : Type} (cfg : Config) (sys : Sys σ) (dm : DiskManager) (os : σ)
    (fname : String) (fid : Int)
    (hopen : (DiskManager.OpenFile sys fname dm os).result = .ok fid)
    (hfresh : Map.find dm.fid_name_map_ fid = none) :
    ∀ os1 : σ,
      (DiskManager.CloseFile sys fid (DiskManager.OpenFile sys fname dm os).dm os1).result = .ok () ∧
      ∀ (ops : List Op) (os2 : σ), (ops.all fun op => !op.isOpen) = true →
        ∀ s : DiskManager × σ,
          s = run cfg sys ops
            (DiskManager.CloseFile sys fid (DiskManager.OpenFile sys fname dm os).dm os1).dm os2 →
          (∀ (page_id : Int) (buf : List Byte),
            DiskManager.ReadPage cfg sys fid page_id buf s.1 s.2 =
              ⟨.error (.FETAL "DiskManager" "ReadPage()" ("fid: " ++ toString fid)), s.1, s.2⟩) ∧
          (∀ (page_id : Int) (data : List Byte),
            DiskManager.WritePage cfg sys fid page_id data s.1 s.2 =
              ⟨.error (.FETAL "DiskManager" "WritePage()" ("fid: " ++ toString fid)), s.1, s.2⟩) ∧
          DiskManager.GetFileName fid s.1 =
            .error (.WSDBException .WSDB_FILE_NOT_OPEN "DiskManager" "GetFileName"
              ("fid: " ++ toString fid)) ∧
          DiskManager.CloseFile sys fid s.1 s.2 =
            ⟨.error (.WSDBException .WSDB_FILE_NOT_OPEN "DiskManager" "CloseFile"
              ("fid: " ++ toString fid)), s.1, s.2⟩ ∧
          DiskManager.GetFileId cfg fname s.1 = cfg.INVALID_TABLE_ID := by
  obtain ⟨_, hnone, _, _, hdm, _⟩ := OpenFile_ok sys fname dm os fid hopen
  have hf : Map.find (DiskManager.OpenFile sys fname dm os).dm.fid_name_map_ fid = some fname := by
    rw [hdm]; exact Map.find_insert_self _ _ _ hfresh
  intro os1
  rw [CloseFile_of_tracked sys fid _ os1 fname hf]
  refine ⟨rfl, ?_⟩
  intro ops os2 hall s hs
  have hun := run_keeps_untracked cfg sys ops
    { name_fid_map_ := Map.erase (DiskManager.OpenFile sys fname dm os).dm.name_fid_map_ fname,
      fid_name_map_ := Map.erase (DiskManager.OpenFile sys fname dm os).dm.fid_name_map_ fid }
    os2 fname fid hall
    ⟨Map.find_erase_self (DiskManager.OpenFile sys fname dm os).dm.name_fid_map_ fname,
     Map.find_erase_self (DiskManager.OpenFile sys fname dm os).dm.fid_name_map_ fid⟩
  rw [← hs] at hun
  obtain ⟨hn, hi⟩ := hun
  refine ⟨?_, ?_, ?_, ?_, ?_⟩
  · intro page_id buf
    exact ReadPage_of_untracked cfg sys fid page_id buf s.1 s.2 hi
  · intro page_id data
    exact WritePage_of_untracked cfg sys fid page_id data s.1 s.2 hi
  · simp [DiskManager.GetFileName, hi]
  · exact CloseFile_of_untracked sys fid s.1 s.2 hi
  · simp [DiskManager.GetFileId, hn]

/-! ## The name and id tables are inverse to each other -/

theorem MutualInverse_empty : MutualInverse DiskManager.empty := by
  intro name fid
  simp [DiskManager.empty, Map.find]

/-- Adding `name ↦ fid` and `fid ↦ name`, neither of them a key before, keeps
the maps inverse to each other. -/
theorem MutualInverse_insert (dm : DiskManager) (fname : String) (fd : Int)
    (hinv : MutualInverse dm) (hn : Map.find dm.name_fid_map_ fname = none)
    (hf : Map.find dm.fid_name_map_ fd = none) :
    MutualInverse { name_fid_map_ := Map.insert dm.name_fid_map_ fname fd,
                    fid_name_map_ := Map.insert dm.fid_name_map_ fd fname } := by
  intro name fid
  show Map.find (Map.insert dm.name_fid_map_ fname fd) name = some fid ↔
    Map.find (Map.insert dm.fid_name_map_ fd fname) fid = some name
  by_cases h1 : fname = name
  · subst h1
    rw [Map.find_insert_self _ _ _ hn]
    by_cases h2 : fd = fid
    · subst h2
      rw [Map.find_insert_self _ _ _ hf]
      exact ⟨fun _ => rfl, fun _ => rfl⟩
    · rw [Map.find_insert_of_ne _ _ _ _ h2]
      constructor
      · intro h
        exact absurd (Option.some.inj h) h2
      · intro h
        rw [(hinv fname fid).2 h] at hn
        cases hn
  · rw [Map.find_insert_of_ne _ _ _ _ h1]
    by_cases h2 : fd = fid
    · subst h2
      rw [Map.find_insert_self _ _ _ hf]
      constructor
      · intro h
        rw [(hinv name fd).1 h] at hf
        cases hf
      · intro h
        exact absurd (Option.some.inj h) h1
    · rw [Map.find_insert_of_ne _ _ _ _ h2]
      exact hinv name fid

/-- Removing `fid` and the name it was mapped to keeps the maps inverse to
each other. -/
theorem MutualInverse_erase (dm : DiskManager) (fname : String) (fd : Int)
    (hinv : MutualInverse dm) (hf : Map.find dm.fid_name_map_ fd = some fname) :
    MutualInverse { name_fid_map_ := Map.erase dm.name_fid_map_ fname,
                    fid_name_map_ := Map.erase dm.fid_name_map_ fd } := by
  have hn : Map.find dm.name_fid_map_ fname = some fd := (hinv fname fd).2 hf
  intro name fid
  show Map.find (Map.erase dm.name_fid_map_ fname) name = some fid ↔
    Map.find (Map.erase dm.fid_name_map_ fd) fid = some name
  by_cases h1 : fname = name
  · subst h1
    rw [Map.find_erase_self]
    by_cases h2 : fd = fid
    · subst h2
      rw [Map.find_erase_self]
      constructor <;> intro h <;> cases h
    · rw [Map.find_erase_of_ne _ _ _ h2]
      constructor
      · intro h
        cases h
      · intro h
        rw [(hinv fname fid).2 h] at hn
        exact absurd (Option.some.inj hn).symm h2
  · rw [Map.find_erase_of_ne _ _ _ h1]
    by_cases h2 : fd = fid
    · subst h2
      rw [Map.find_erase_self]
      constructor
      · intro h
        rw [(hinv name fd).1 h] at hf
        exact absurd (Option.some.inj hf).symm h1
      · intro h
        cases h
    · rw [Map.find_erase_of_ne _ _ _ h2]
      exact hinv name fid

theorem MutualInverse_OpenFile {σ : Type} (sys : Sys σ) (fname : String) (dm : DiskManager) (os : σ)
    (hinv : MutualInverse dm) (hfresh : openFresh sys fname dm os = true) :
    MutualInverse (DiskManager.OpenFile sys fname dm os).dm := by
  cases hres : (DiskManager.OpenFile sys fname dm os).result with
  | error e => rw [OpenFile_error_dm sys fname dm os e hres]; exact hinv
  | ok fid =>
    obtain ⟨hex, hn, hfd, hne, hdm, _⟩ := OpenFile_ok sys fname dm os fid hres
    rw [hdm]
    refine MutualInverse_insert dm fname fid hinv hn ?_
    simp only [openFresh, DiskManager.FileExists, hex, hn, hfd, Bool.not_true, Option.isSome_none,
      Bool.or_self, Bool.false_or, Bool.or_eq_true, decide_eq_true_eq, Option.isNone_iff_eq_none]
      at hfresh
    rcases hfresh with h | h
    · exact absurd h hne
    · exact h

theorem MutualInverse_CloseFile {σ : Type} (sys : Sys σ) (fid : Int) (dm : DiskManager) (os : σ)
    (hinv : MutualInverse dm) : MutualInverse (DiskManager.CloseFile sys fid dm os).dm := by
  cases h : Map.find dm.fid_name_map_ fid with
  | none => rw [CloseFile_of_untracked sys fid dm os h]; exact hinv
  | some name => rw [CloseFile_of_tracked sys fid dm os name h]; exact MutualInverse_erase dm name fid hinv h

theorem MutualInverse_step {σ : Type} (cfg : Config) (sys : Sys σ) (op : Op) (dm : DiskManager)
    (os : σ) (hinv : MutualInverse dm) (hfresh : opensFresh cfg sys [op] dm os = true) :
    MutualInverse (step cfg sys op dm os).1 := by
  cases op with
  | OpenFile fname =>
    simp only [opensFresh, Bool.and_true] at hfresh
    exact MutualInverse_OpenFile sys fname dm os hinv hfresh
  | CloseFile f => exact MutualInverse_CloseFile sys f dm os hinv
  | CreateFile fname => simpa [step, CreateFile_dm] using hinv
  | DestroyFile fname => simpa [step, DestroyFile_dm] using hinv
  | WritePage f p d => simpa [step, WritePage_dm] using hinv
  | ReadPage f p d => simpa [step, ReadPage_dm] using hinv
  | ReadFile f d s o t => simpa [step, ReadFile_dm] using hinv
  | WriteFile f d s t => simpa [step, WriteFile_dm] using hinv
  | WriteLog a b => simpa [step, DiskManager.WriteLog] using hinv
  | ReadLog a b => simpa [step, DiskManager.ReadLog] using hinv
  | GetFileId a => simpa [step] using hinv
  | GetFileName a => simpa [step] using hinv
  | FileExists a => simpa [step] using hinv

theorem MutualInverse_run {σ : Type} (cfg : Config) (sys : Sys σ) (ops : List Op) :
    ∀ (dm : DiskManager) (os : σ), MutualInverse dm → opensFresh cfg sys ops dm os = true →
      MutualInverse (run cfg sys ops dm os).1 := by
  induction ops with
  | nil => intro dm os h _; exact h
  | cons op ops ih =>
    intro dm os hinv hfresh
    have h1 : opensFresh cfg sys [op] dm os = true := by
      simp only [opensFresh, Bool.and_eq_true] at hfresh ⊢
      exact ⟨hfresh.1, trivial⟩
    have h2 : opensFresh cfg sys ops (step cfg sys op dm os).1 (step cfg sys op dm os).2 = true := by
      simp only [opensFresh, Bool.and_eq_true] at hfresh
      exact hfresh.2
    exact ih _ _ (MutualInverse_step cfg sys op dm os hinv h1) h2

/-- C5 (name and id table invariant).  Start from the disk manager that tracks
nothing, in any state of the outside world, and make any sequence of calls
(returning or not) in which every underlying `open` that is reached returns
-1 or a descriptor that is not tracked at that moment.  In the state reached,
`name_fid_map_` maps a name to an id exactly when `fid_name_map_` maps the id
to the name; two names tracked with the same id are the same name, and two ids
tracked with the same name are the same id.  If `OpenFile fname` then returns
`fid`, again with a descriptor that was not tracked, then right after it
`GetFileId fname` is `fid` and `GetFileName fid` is `fname`. -/
theorem name_id_maps_inverse {σ : Type} (cfg : Config) (sys : Sys σ) (ops : List Op) (os0 : σ)
    (hfresh : opensFresh cfg sys ops DiskManager.empty os0 = true) :
    MutualInverse (run cfg sys ops DiskManager.empty os0).1 ∧
    (∀ (n1 n2 : String) (fid : Int),
      Map.find (run cfg sys ops DiskManager.empty os0).1.name_fid_map_ n1 = some fid →
      Map.find (run cfg sys ops DiskManager.empty os0).1.name_fid_map_ n2 = some fid → n1 = n2) ∧
    (∀ (f1 f2 : Int) (name : String),
      Map.find (run cfg sys ops DiskManager.empty os0).1.fid_name_map_ f1 = some name →
      Map.find (run cfg sys ops DiskManager.empty os0).1.fid_name_map_ f2 = some name → f1 = f2) ∧
    (∀ (fname : String) (fid : Int),
      openFresh sys fname (run cfg sys ops DiskManager.empty os0).1
        (run cfg sys ops DiskManager.empty os0).2 = true →
      (DiskManager.OpenFile sys fname (run cfg sys ops DiskManager.empty os0).1
        (run cfg sys ops DiskManager.empty os0).2).result = .ok fid →
      DiskManager.GetFileId cfg fname
        (DiskManager.OpenFile sys fname (run cfg sys ops DiskManager.empty os0).1
          (run cfg sys ops DiskManager.empty os0).2).dm = fid ∧
      DiskManager.GetFileName fid
        (DiskManager.OpenFile sys fname (run cfg sys ops DiskManager.empty os0).1
          (run cfg sys ops DiskManager.empty os0).2).dm = .ok fname) := by
  have hinv := MutualInverse_run cfg sys ops DiskManager.empty os0 MutualInverse_empty hfresh
  refine ⟨hinv, ?_, ?_, ?_⟩
  · intro n1 n2 fid h1 h2
    have e1 := (hinv n1 fid).1 h1
    have e2 := (hinv n2 fid).1 h2
    rw [e1] at e2
    exact Option.some.inj e2
  · intro f1 f2 name h1 h2
    have e1 := (hinv name f1).2 h1
    have e2 := (hinv name f2).2 h2
    rw [e1] at e2
    exact Option.some.inj e2
  · intro fname fid hfr hres
    generalize run cfg sys ops DiskManager.empty os0 = s at hinv hfr hres ⊢
    obtain ⟨hex, hn, hfd, hne, hdm, _⟩ := OpenFile_ok sys fname s.1 s.2 fid hres
    have hf : Map.find s.1.fid_name_map_ fid = none := by
      simp only [openFresh, DiskManager.FileExists, hex, hn, hfd, Bool.not_true, Option.isSome_none,
        Bool.or_self, Bool.false_or, Bool.or_eq_true, decide_eq_true_eq,
        Option.isNone_iff_eq_none] at hfr
      rcases hfr with h | h
      · exact absurd h hne
      · exact h
    rw [hdm]
    constructor
    · simp [DiskManager.GetFileId, Map.find_insert_self _ _ _ hn]
    · simp [DiskManager.GetFileName, Map.find_insert_self _ _ _ hf]

/-! ## Bytes of a file after a write -/

theorem writeAt_length (content : List Byte) (pos : Nat) (chunk : List Byte) :
    (writeAt content pos chunk).length =
      if chunk.length = 0 then content.length else max content.length (pos + chunk.length) := by
  unfold writeAt
  split_ifs with h
  · rfl
  · simp only [List.length_append, List.length_take, List.length_replicate, List.length_drop]
    omega

/-- Reading back, at the position of the write, as many bytes as were written
gives the bytes written. -/
theorem writeAt_read_back (content : List Byte) (pos : Nat) (chunk : List Byte) :
    ((writeAt content pos chunk).drop pos).take chunk.length = chunk := by
  unfold writeAt
  split_ifs with h
  · rw [h, List.take_zero]
    exact (List.length_eq_zero.mp h).symm
  · have hlen : (content.take pos ++ List.replicate (pos - content.length) (0 : Byte)).length = pos := by
      simp only [List.length_append, List.length_take, List.length_replicate]
      omega
    rw [List.append_assoc (content.take pos ++ List.replicate (pos - content.length) (0 : Byte)),
      List.drop_left' hlen, List.take_left' rfl]

/-- A byte that was in the file before the position of the write is not
changed. -/
theorem writeAt_getElem?_before (content : List Byte) (pos : Nat) (chunk : List Byte) (i : Nat)
    (hi : i < pos) (hlen : i < content.length) :
    (writeAt content pos chunk)[i]? = content[i]? := by
  unfold writeAt
  split_ifs with h
  · rfl
  · have h1 : i < (content.take pos).length := by
      simp only [List.length_take]; omega
    rw [List.append_assoc, List.append_assoc, List.getElem?_append_left h1,
      List.getElem?_take_of_lt hi]

/-- A byte behind the bytes written is not changed. -/
theorem writeAt_getElem?_behind (content : List Byte) (pos : Nat) (chunk : List Byte) (i : Nat)
    (hi : pos + chunk.length ≤ i) :
    (writeAt content pos chunk)[i]? = content[i]? := by
  unfold writeAt
  split_ifs with h
  · rfl
  · have hlen : (content.take pos ++ List.replicate (pos - content.length) (0 : Byte) ++ chunk).length
        = pos + chunk.length := by
      simp only [List.length_append, List.length_take, List.length_replicate]
      omega
    rw [List.getElem?_append_right (by rw [hlen]; exact hi), hlen, List.getElem?_drop]
    congr 1
    omega

/-- A block of the old file that does not meet the bytes written reads the
same after the write. -/
theorem writeAt_read_other (content : List Byte) (pos : Nat) (chunk : List Byte) (a n : Nat)
    (hin : a + n ≤ content.length) (hdis : a + n ≤ pos ∨ pos + chunk.length ≤ a) :
    ((writeAt content pos chunk).drop a).take n = (content.drop a).take n := by
  apply List.ext_getElem?
  intro j
  rw [List.getElem?_take, List.getElem?_take]
  split_ifs with hj
  · rw [List.getElem?_drop, List.getElem?_drop]
    rcases hdis with h | h
    · exact writeAt_getElem?_before content pos chunk (a + j) (by omega) (by omega)
    · exact writeAt_getElem?_behind content pos chunk (a + j) (by omega)
  · rfl

/-- The offset of a page whose bytes lie below 2 ^ 63 is computed without
wrapping. -/
theorem page_offset_eq (cfg : Config) (page_id : Int) (h0 : 0 ≤ page_id)
    (h : page_id * (cfg.PAGE_SIZE : Int) < 2 ^ 63) :
    page_offset cfg page_id = page_id * (cfg.PAGE_SIZE : Int) := by
  have hid : ∀ x : Int, 0 ≤ x → x < 2 ^ 63 → off_t_cast x = x := by
    intro x hx0 hx
    unfold off_t_cast
    rw [Int.emod_eq_of_lt (by omega) (by omega)]
    omega
  have hps : (0 : Int) ≤ (cfg.PAGE_SIZE : Int) := Int.natCast_nonneg _
  unfold page_offset
  rcases lt_or_ge 0 page_id with hp | hp
  · rcases lt_or_ge 0 (cfg.PAGE_SIZE : Int) with hs | hs
    · have h1 : page_id ≤ page_id * (cfg.PAGE_SIZE : Int) := by nlinarith
      have h2 : (cfg.PAGE_SIZE : Int) ≤ page_id * (cfg.PAGE_SIZE : Int) := by nlinarith
      rw [hid page_id h0 (by omega), hid (cfg.PAGE_SIZE : Int) hps (by omega)]
      exact hid _ (by nlinarith) h
    · have hz : (cfg.PAGE_SIZE : Int) = 0 := by omega
      rw [hz]
      simp [off_t_cast]
  · have hz : page_id = 0 := by omega
    rw [hz]
    simp [off_t_cast]

/-! ## The calls of the file model on an open descriptor -/

theorem posix_lseek_set (os : Posix) (fd off : Int) (e : Nat × Nat) (content : List Byte)
    (hfd : Map.find os.fds fd = some e) (hino : Map.find os.inodes e.1 = some content)
    (hoff : 0 ≤ off) :
    Posix.lseek os fd off SEEK_SET =
      (off, { os with fds := Map.set os.fds fd (e.1, off.toNat) }) := by
  have hneg : ¬ off < 0 := by omega
  simp [Posix.lseek, hfd, hino, Posix.seekBase, hneg]

/-- A failing `lseek` moves nothing. -/
theorem posix_lseek_fail (os : Posix) (fd off whence : Int)
    (h : Map.find os.fds fd = none ∨
      ∃ e, Map.find os.fds fd = some e ∧ Map.find os.inodes e.1 = none) :
    Posix.lseek os fd off whence = (-1, os) := by
  rcases h with h | ⟨e, h1, h2⟩
  · simp [Posix.lseek, h]
  · simp [Posix.lseek, h1, h2]

theorem posix_write_fail (os : Posix) (fd : Int) (data : List Byte) (n : Nat)
    (h : Map.find os.fds fd = none ∨
      ∃ e, Map.find os.fds fd = some e ∧ Map.find os.inodes e.1 = none) :
    Posix.write os fd data n = (-1, os) := by
  rcases h with h | ⟨e, h1, h2⟩
  · simp [Posix.write, h]
  · simp [Posix.write, h1, h2]

/-- A `write` that returns the count it was asked for has written the first
`n` bytes of the buffer at the position and advanced the position by `n`. -/
theorem posix_write_full (os : Posix) (fd : Int) (data : List Byte) (n : Nat) (e : Nat × Nat)
    (content : List Byte) (hfd : Map.find os.fds fd = some e)
    (hino : Map.find os.inodes e.1 = some content)
    (hret : (Posix.write os fd data n).1 = (n : Int)) :
    n ≤ data.length ∧
    Posix.write os fd data n =
      ((n : Int), { os with
        inodes := Map.set os.inodes e.1 (writeAt content e.2 (data.take n)),
        fds := Map.set os.fds fd (e.1, e.2 + n) }) := by
  simp only [Posix.write, hfd, hino] at hret ⊢
  split_ifs at hret ⊢ with h
  · simp only at hret
    omega
  · simp only [Nat.cast_inj] at hret
    have hl := hret
    rw [List.length_take] at hl
    have hmin : min n (os.fsize - e.2) = n := by omega
    rw [hmin] at hret ⊢
    refine ⟨by omega, ?_⟩
    rw [hret]

theorem posix_read_open (os : Posix) (fd : Int) (n : Nat) (e : Nat × Nat) (content : List Byte)
    (hfd : Map.find os.fds fd = some e) (hino : Map.find os.inodes e.1 = some content) :
    Posix.read os fd n =
      ((((content.drop e.2).take n).length : Int), (content.drop e.2).take n,
       { os with fds := Map.set os.fds fd (e.1, e.2 + ((content.drop e.2).take n).length) }) := by
  simp [Posix.read, hfd, hino]

/-! ## WritePage and ReadPage over the file model -/

theorem posix_lseek_def : posix.lseek = Posix.lseek := rfl

theorem posix_write_def : posix.write = Posix.write := rfl

theorem posix_read_def : posix.read = Posix.read := rfl

theorem WritePage_of_tracked {σ : Type} (cfg : Config) (sys : Sys σ) (fid page_id : Int)
    (data : List Byte) (dm : DiskManager) (os : σ)
    (h : (Map.find dm.fid_name_map_ fid).isSome = true) :
    DiskManager.WritePage cfg sys fid page_id data dm os =
      if (sys.write (sys.lseek os fid (page_offset cfg page_id) SEEK_SET).2 fid data cfg.PAGE_SIZE).1
          ≠ (cfg.PAGE_SIZE : Int) then
        ⟨.error (.WSDBException .WSDB_PAGE_WRITE_ERROR "DiskManager" "WritePage"
            ("fid: " ++ toString fid ++ ", page_id: " ++ toString page_id)), dm,
          (sys.write (sys.lseek os fid (page_offset cfg page_id) SEEK_SET).2 fid data cfg.PAGE_SIZE).2⟩
      else
        ⟨.ok (), dm,
          (sys.write (sys.lseek os fid (page_offset cfg page_id) SEEK_SET).2 fid data cfg.PAGE_SIZE).2⟩ := by
  simp only [DiskManager.WritePage, WSDB_ASSERT, h, if_true]

theorem ReadPage_of_tracked {σ : Type} (cfg : Config) (sys : Sys σ) (fid page_id : Int)
    (data : List Byte) (dm : DiskManager) (os : σ)
    (h : (Map.find dm.fid_name_map_ fid).isSome = true) :
    DiskManager.ReadPage cfg sys fid page_id data dm os =
      if (sys.read (sys.lseek os fid (page_offset cfg page_id) SEEK_SET).2 fid cfg.PAGE_SIZE).1 < 0 then
        ⟨.error (.WSDBException .WSDB_PAGE_READ_ERROR "DiskManager" "ReadPage"
            ("fid: " ++ toString fid ++ ", page_id: " ++ toString page_id)), dm,
          (sys.read (sys.lseek os fid (page_offset cfg page_id) SEEK_SET).2 fid cfg.PAGE_SIZE).2.2⟩
      else
        ⟨.ok (storeBuf data
            (sys.read (sys.lseek os fid (page_offset cfg page_id) SEEK_SET).2 fid cfg.PAGE_SIZE).2.1), dm,
          (sys.read (sys.lseek os fid (page_offset cfg page_id) SEEK_SET).2 fid cfg.PAGE_SIZE).2.2⟩ := by
  simp only [DiskManager.ReadPage, WSDB_ASSERT, h, if_true]

/-- A `WritePage` that returns, over the file model: the id is tracked, its
descriptor is open on a file, and the first `PAGE_SIZE` bytes of the buffer
were written at the offset of the page. -/
theorem posix_WritePage_ok (cfg : Config) (dm : DiskManager) (os : Posix) (fid page_id : Int)
    (data : List Byte) (hp : 0 ≤ page_id) (hoff : page_id * (cfg.PAGE_SIZE : Int) < 2 ^ 63)
    (hw : (DiskManager.WritePage cfg posix fid page_id data dm os).result = .ok ()) :
    ∃ (e : Nat × Nat) (content : List Byte),
      Map.find os.fds fid = some e ∧ Map.find os.inodes e.1 = some content ∧
      (Map.find dm.fid_name_map_ fid).isSome = true ∧ cfg.PAGE_SIZE ≤ data.length ∧
      DiskManager.WritePage cfg posix fid page_id data dm os =
        ⟨.ok (), dm, { os with
          inodes := Map.set os.inodes e.1
            (writeAt content (page_id * (cfg.PAGE_SIZE : Int)).toNat (data.take cfg.PAGE_SIZE)),
          fds := Map.set (Map.set os.fds fid (e.1, (page_id * (cfg.PAGE_SIZE : Int)).toNat)) fid
            (e.1, (page_id * (cfg.PAGE_SIZE : Int)).toNat + cfg.PAGE_SIZE) }⟩ := by
  have htr : (Map.find dm.fid_name_map_ fid).isSome = true := by
    cases h : Map.find dm.fid_name_map_ fid with
    | none => rw [WritePage_of_untracked cfg posix fid page_id data dm os h] at hw; cases hw
    | some n => rfl
  have hpo := page_offset_eq cfg page_id hp hoff
  have hnn : (0 : Int) ≤ page_id * (cfg.PAGE_SIZE : Int) := Int.mul_nonneg hp (Int.natCast_nonneg _)
  rw [WritePage_of_tracked cfg posix fid page_id data dm os htr, hpo] at hw ⊢
  rw [posix_lseek_def, posix_write_def] at hw ⊢
  have hbad : ∀ h : (Map.find os.fds fid = none ∨
      ∃ e, Map.find os.fds fid = some e ∧ Map.find os.inodes e.1 = none), False := by
    intro h
    rw [posix_lseek_fail os fid _ SEEK_SET h, posix_write_fail os fid data _ h] at hw
    have : ((-1 : Int) ≠ (cfg.PAGE_SIZE : Int)) := by omega
    simp [this] at hw
  cases hfd : Map.find os.fds fid with
  | none => exact (hbad (Or.inl hfd)).elim
  | some e =>
    cases hino : Map.find os.inodes e.1 with
    | none => exact (hbad (Or.inr ⟨e, hfd, hino⟩)).elim
    | some content =>
      refine ⟨e, content, rfl, hino, htr, ?_⟩
      rw [posix_lseek_set os fid _ e content hfd hino hnn] at hw ⊢
      simp only at hw ⊢
      generalize hos1 : ({ os with
        fds := Map.set os.fds fid (e.1, (page_id * (cfg.PAGE_SIZE : Int)).toNat) } : Posix) = os1
        at hw ⊢
      have hfd1 : Map.find os1.fds fid = some (e.1, (page_id * (cfg.PAGE_SIZE : Int)).toNat) := by
        rw [← hos1]; exact Map.find_set_self _ _ _
      have hino1 : Map.find os1.inodes e.1 = some content := by
        rw [← hos1]; exact hino
      have hret : (Posix.write os1 fid data cfg.PAGE_SIZE).1 = (cfg.PAGE_SIZE : Int) := by
        by_contra hne
        simp [hne] at hw
      obtain ⟨hlen, hwr⟩ := posix_write_full os1 fid data cfg.PAGE_SIZE _ content hfd1 hino1 hret
      rw [hwr]
      refine ⟨hlen, ?_⟩
      rw [← hos1]
      simp

/-- A `ReadPage` on a tracked id whose descriptor is open on a file, over the
file model: the buffer receives the bytes of the file from the offset of the
page on, at most `PAGE_SIZE` of them, and keeps its other bytes. -/
theorem posix_ReadPage_open (cfg : Config) (dm : DiskManager) (os : Posix) (fid page_id : Int)
    (buf : List Byte) (e : Nat × Nat) (content : List Byte)
    (htr : (Map.find dm.fid_name_map_ fid).isSome = true)
    (hfd : Map.find os.fds fid = some e) (hino : Map.find os.inodes e.1 = some content)
    (hp : 0 ≤ page_id) (hoff : page_id * (cfg.PAGE_SIZE : Int) < 2 ^ 63) :
    (DiskManager.ReadPage cfg posix fid page_id buf dm os).result =
      .ok (storeBuf buf
        ((content.drop (page_id * (cfg.PAGE_SIZE : Int)).toNat).take cfg.PAGE_SIZE)) := by
  have hpo := page_offset_eq cfg page_id hp hoff
  have hnn : (0 : Int) ≤ page_id * (cfg.PAGE_SIZE : Int) := Int.mul_nonneg hp (Int.natCast_nonneg _)
  rw [ReadPage_of_tracked cfg posix fid page_id buf dm os htr, hpo, posix_lseek_def, posix_read_def,
    posix_lseek_set os fid _ e content hfd hino hnn]
  generalize hos1 : ({ os with
    fds := Map.set os.fds fid (e.1, (page_id * (cfg.PAGE_SIZE : Int)).toNat) } : Posix) = os1
  have hfd1 : Map.find os1.fds fid = some (e.1, (page_id * (cfg.PAGE_SIZE : Int)).toNat) := by
    rw [← hos1]; exact Map.find_set_self _ _ _
  have hino1 : Map.find os1.inodes e.1 = some content := by
    rw [← hos1]; exact hino
  rw [posix_read_open os1 fid cfg.PAGE_SIZE _ content hfd1 hino1]
  have hneg : ¬ ((((content.drop (page_id * (cfg.PAGE_SIZE : Int)).toNat).take cfg.PAGE_SIZE).length
      : Int) < 0) := by omega
  simp only [hneg, if_false]

/-! ## Page round trip -/

/-- C4 (page round trip), over the file model in which a file is a byte
sequence and a descriptor has a seek position.  Let `WritePage fid page_id
data` return, for a page number that is not negative and whose bytes lie
below 2 ^ 63, and a block `data` of `PAGE_SIZE` bytes.

* `ReadPage fid page_id buf` then returns with the first `PAGE_SIZE` bytes of
  `buf` equal to `data`; a buffer of exactly `PAGE_SIZE` bytes equals `data`.
* The descriptor is open on a file; the directory and every other file are
  as before; every byte that the file had outside
  `[page_id * PAGE_SIZE, (page_id + 1) * PAGE_SIZE)` is as before; and every
  other page that lay in the file before reads back, after the write as
  before it, as the bytes it had. -/
theorem WritePage_ReadPage_round_trip (cfg : Config) (dm : DiskManager) (os : Posix)
    (fid page_id : Int) (data : List Byte)
    (hp : 0 ≤ page_id) (hoff : page_id * (cfg.PAGE_SIZE : Int) < 2 ^ 63)
    (hdata : data.length = cfg.PAGE_SIZE)
    (hw : (DiskManager.WritePage cfg posix fid page_id data dm os).result = .ok ()) :
    (∀ buf : List Byte,
      (DiskManager.ReadPage cfg posix fid page_id buf
        (DiskManager.WritePage cfg posix fid page_id data dm os).dm
        (DiskManager.WritePage cfg posix fid page_id data dm os).os).result =
        .ok (data ++ buf.drop cfg.PAGE_SIZE) ∧
      (buf.length = cfg.PAGE_SIZE →
        (DiskManager.ReadPage cfg posix fid page_id buf
          (DiskManager.WritePage cfg posix fid page_id data dm os).dm
          (DiskManager.WritePage cfg posix fid page_id data dm os).os).result = .ok data)) ∧
    (∃ (e : Nat × Nat) (old new : List Byte),
      Map.find os.fds fid = some e ∧ Map.find os.inodes e.1 = some old ∧
      Posix.fileBytes os fid = some old ∧
      Posix.fileBytes (DiskManager.WritePage cfg posix fid page_id data dm os).os fid = some new ∧
      (DiskManager.WritePage cfg posix fid page_id data dm os).os.dir = os.dir ∧
      (∀ ino : Nat, ino ≠ e.1 →
        Map.find (DiskManager.WritePage cfg posix fid page_id data dm os).os.inodes ino =
          Map.find os.inodes ino) ∧
      (∀ i : Nat, i < old.length →
        ((i : Int) < page_id * (cfg.PAGE_SIZE : Int) ∨
          (page_id + 1) * (cfg.PAGE_SIZE : Int) ≤ (i : Int)) →
        new[i]? = old[i]?) ∧
      (∀ (q : Int) (buf : List Byte), 0 ≤ q → q ≠ page_id →
        (q + 1) * (cfg.PAGE_SIZE : Int) ≤ (old.length : Int) →
        q * (cfg.PAGE_SIZE : Int) < 2 ^ 63 →
        (DiskManager.ReadPage cfg posix fid q buf
          (DiskManager.WritePage cfg posix fid page_id data dm os).dm
          (DiskManager.WritePage cfg posix fid page_id data dm os).os).result =
          .ok ((old.drop (q * (cfg.PAGE_SIZE : Int)).toNat).take cfg.PAGE_SIZE
            ++ buf.drop cfg.PAGE_SIZE) ∧
        (DiskManager.ReadPage cfg posix fid q buf dm os).result =
          .ok ((old.drop (q * (cfg.PAGE_SIZE : Int)).toNat).take cfg.PAGE_SIZE
            ++ buf.drop cfg.PAGE_SIZE))) := by
  obtain ⟨e, old, hfd, hino, htr, _, hwp⟩ := posix_WritePage_ok cfg dm os fid page_id data hp hoff hw
  have htake : data.take cfg.PAGE_SIZE = data := List.take_of_length_le (by omega)
  rw [htake] at hwp
  rw [hwp]
  have hnn : (0 : Int) ≤ page_id * (cfg.PAGE_SIZE : Int) := Int.mul_nonneg hp (Int.natCast_nonneg _)
  generalize hoffn : (page_id * (cfg.PAGE_SIZE : Int)).toNat = off at hwp ⊢
  have hoffi : (off : Int) = page_id * (cfg.PAGE_SIZE : Int) := by
    rw [← hoffn]; exact Int.toNat_of_nonneg hnn
  generalize hos2 : ({ os with
    inodes := Map.set os.inodes e.1 (writeAt old off data),
    fds := Map.set (Map.set os.fds fid (e.1, off)) fid (e.1, off + cfg.PAGE_SIZE) } : Posix) = os2
  have hfd2 : Map.find os2.fds fid = some (e.1, off + cfg.PAGE_SIZE) := by
    rw [← hos2]; exact Map.find_set_self _ _ _
  have hino2 : Map.find os2.inodes e.1 = some (writeAt old off data) := by
    rw [← hos2]; exact Map.find_set_self _ _ _
  have hback : ((writeAt old off data).drop off).take cfg.PAGE_SIZE = data := by
    rw [← hdata]; exact writeAt_read_back old off data
  have hread : ∀ buf : List Byte, (DiskManager.ReadPage cfg posix fid page_id buf dm os2).result =
      .ok (data ++ buf.drop cfg.PAGE_SIZE) := by
    intro buf
    rw [posix_ReadPage_open cfg dm os2 fid page_id buf _ _ htr hfd2 hino2 hp hoff, hoffn, hback,
      storeBuf, hdata]
  refine ⟨fun buf => ⟨hread buf, fun hb => ?_⟩, ?_⟩
  · rw [hread buf, List.drop_of_length_le (by omega), List.append_nil]
  · refine ⟨e, old, writeAt old off data, hfd, hino, ?_, ?_, ?_, ?_, ?_, ?_⟩
    · simp [Posix.fileBytes, hfd, hino]
    · simp [Posix.fileBytes, hfd2, hino2]
    · rw [← hos2]
    · intro ino hne
      rw [← hos2]
      exact Map.find_set_of_ne _ _ _ _ (Ne.symm hne)
    · intro i hi hout
      rcases hout with h | h
      · exact writeAt_getElem?_before old off data i (by omega) hi
      · refine writeAt_getElem?_behind old off data i ?_
        rw [hdata]
        have : (off : Int) + (cfg.PAGE_SIZE : Int) ≤ (i : Int) := by
          rw [hoffi]; linarith
        omega
    · intro q buf hq hne hin hqoff
      have hqnn : (0 : Int) ≤ q * (cfg.PAGE_SIZE : Int) := Int.mul_nonneg hq (Int.natCast_nonneg _)
      generalize hqn : (q * (cfg.PAGE_SIZE : Int)).toNat = a
      have hqi : (a : Int) = q * (cfg.PAGE_SIZE : Int) := by
        rw [← hqn]; exact Int.toNat_of_nonneg hqnn
      have hfit : a + cfg.PAGE_SIZE ≤ old.length := by
        have : (a : Int) + (cfg.PAGE_SIZE : Int) ≤ (old.length : Int) := by
          rw [hqi]; linarith
        omega
      have hdis : a + cfg.PAGE_SIZE ≤ off ∨ off + data.length ≤ a := by
        rw [hdata]
        rcases lt_or_gt_of_ne hne with h | h
        · left
          have h1 : q + 1 ≤ page_id := by omega
          have : (a : Int) + (cfg.PAGE_SIZE : Int) ≤ (off : Int) := by
            rw [hqi, hoffi]; nlinarith [Int.natCast_nonneg cfg.PAGE_SIZE]
          omega
        · right
          have h1 : page_id + 1 ≤ q := by omega
          have : (off : Int) + (cfg.PAGE_SIZE : Int) ≤ (a : Int) := by
            rw [hqi, hoffi]; nlinarith [Int.natCast_nonneg cfg.PAGE_SIZE]
          omega
      have hlen : ((old.drop a).take cfg.PAGE_SIZE).length = cfg.PAGE_SIZE := by
        rw [List.length_take, List.length_drop]; omega
      constructor
      · rw [posix_ReadPage_open cfg dm os2 fid q buf _ _ htr hfd2 hino2 hq hqoff, hqn,
          writeAt_read_other old off data a cfg.PAGE_SIZE hfit hdis, storeBuf, hlen]
      · rw [posix_ReadPage_open cfg dm os fid q buf _ _ htr hfd hino hq hqoff, hqn, storeBuf, hlen]

/-! ## Error conditions of page reads and writes -/

/-- The bytes stored by a `read` are at the start of the buffer afterwards,
and the bytes of the buffer behind them are the old ones. -/
theorem storeBuf_tail (buf bytes : List Byte) :
    (storeBuf buf bytes).take bytes.length = bytes ∧
    (storeBuf buf bytes).drop bytes.length = buf.drop bytes.length := by
  unfold storeBuf
  exact ⟨List.take_left' rfl, List.drop_left' rfl⟩

/-- C10 (page I/O error conditions).  For a tracked id and any page number,
over any behaviour of the system calls:

* `WritePage` throws `WSDB_PAGE_WRITE_ERROR` exactly when the underlying
  `write` returns a count other than `PAGE_SIZE`, and returns otherwise;
* `ReadPage` throws `WSDB_PAGE_READ_ERROR` exactly when the underlying `read`
  returns a negative count; otherwise it returns, whatever the count, with
  the bytes that were read at the start of the buffer and the rest of the
  buffer as it was.

Over the file model, for a descriptor open on a file of `content`: a page at
or behind the end of the file is read with success and the buffer unchanged,
and a page of which only the first `k < PAGE_SIZE` bytes are in the file is
read with success, those `k` bytes being stored and the rest of the buffer
left as it was. -/
theorem page_io_error_conditions {σ : Type} (cfg : Config) (sys : Sys σ) (dm : DiskManager) (os : σ)
    (fid page_id : Int) (htracked : (Map.find dm.fid_name_map_ fid).isSome = true) :
    (∀ data : List Byte,
      ((DiskManager.WritePage cfg sys fid page_id data dm os).result =
          .error (.WSDBException .WSDB_PAGE_WRITE_ERROR "DiskManager" "WritePage"
            ("fid: " ++ toString fid ++ ", page_id: " ++ toString page_id)) ↔
        (sys.write (sys.lseek os fid (page_offset cfg page_id) SEEK_SET).2 fid data cfg.PAGE_SIZE).1
          ≠ (cfg.PAGE_SIZE : Int)) ∧
      ((DiskManager.WritePage cfg sys fid page_id data dm os).result = .ok () ↔
        (sys.write (sys.lseek os fid (page_offset cfg page_id) SEEK_SET).2 fid data cfg.PAGE_SIZE).1
          = (cfg.PAGE_SIZE : Int))) ∧
    (∀ buf : List Byte,
      ((DiskManager.ReadPage cfg sys fid page_id buf dm os).result =
          .error (.WSDBException .WSDB_PAGE_READ_ERROR "DiskManager" "ReadPage"
            ("fid: " ++ toString fid ++ ", page_id: " ++ toString page_id)) ↔
        (sys.read (sys.lseek os fid (page_offset cfg page_id) SEEK_SET).2 fid cfg.PAGE_SIZE).1 < 0) ∧
      (0 ≤ (sys.read (sys.lseek os fid (page_offset cfg page_id) SEEK_SET).2 fid cfg.PAGE_SIZE).1 →
        ∃ out : List Byte,
          (DiskManager.ReadPage cfg sys fid page_id buf dm os).result = .ok out ∧
          out.take
            (sys.read (sys.lseek os fid (page_offset cfg page_id) SEEK_SET).2 fid cfg.PAGE_SIZE).2.1.length
            = (sys.read (sys.lseek os fid (page_offset cfg page_id) SEEK_SET).2 fid cfg.PAGE_SIZE).2.1 ∧
          out.drop
            (sys.read (sys.lseek os fid (page_offset cfg page_id) SEEK_SET).2 fid cfg.PAGE_SIZE).2.1.length
            = buf.drop
            (sys.read (sys.lseek os fid (page_offset cfg page_id) SEEK_SET).2 fid
              cfg.PAGE_SIZE).2.1.length)) ∧
    (∀ (osp : Posix) (e : Nat × Nat) (content buf : List Byte),
      Map.find osp.fds fid = some e → Map.find osp.inodes e.1 = some content →
      0 ≤ page_id → page_id * (cfg.PAGE_SIZE : Int) < 2 ^ 63 →
      ((content.length : Int) ≤ page_id * (cfg.PAGE_SIZE : Int) →
        (DiskManager.ReadPage cfg posix fid page_id buf dm osp).result = .ok buf) ∧
      (∀ k : Nat, (content.length : Int) = page_id * (cfg.PAGE_SIZE : Int) + (k : Int) →
        k < cfg.PAGE_SIZE →
        (DiskManager.ReadPage cfg posix fid page_id buf dm osp).result =
          .ok (content.drop (page_id * (cfg.PAGE_SIZE : Int)).toNat ++ buf.drop k))) := by
  refine ⟨fun data => ?_, fun buf => ?_, ?_⟩
  · rw [WritePage_of_tracked cfg sys fid page_id data dm os htracked]
    split_ifs with h
    · simp [h]
    · simp only [ne_eq, not_not] at h
      simp [h]
  · rw [ReadPage_of_tracked cfg sys fid page_id buf dm os htracked]
    split_ifs with h
    · refine ⟨by simp [h], fun h0 => absurd h (by omega)⟩
    · refine ⟨by simp [h], fun _ => ⟨_, rfl, ?_⟩⟩
      exact storeBuf_tail buf _
  · intro osp e content buf hfd hino hp hoff
    have hnn : (0 : Int) ≤ page_id * (cfg.PAGE_SIZE : Int) := Int.mul_nonneg hp (Int.natCast_nonneg _)
    rw [posix_ReadPage_open cfg dm osp fid page_id buf e content htracked hfd hino hp hoff]
    generalize hoffn : (page_id * (cfg.PAGE_SIZE : Int)).toNat = off
    have hoffi : (off : Int) = page_id * (cfg.PAGE_SIZE : Int) := by
      rw [← hoffn]; exact Int.toNat_of_nonneg hnn
    constructor
    · intro hend
      have : content.drop off = [] := List.drop_of_length_le (by omega)
      simp [this, storeBuf]
    · intro k hk hlt
      have hlen : (content.drop off).length = k := by
        rw [List.length_drop]; omega
      rw [List.take_of_length_le (by omega), storeBuf, hlen]

/-! ## Delete executor -/

/-- C9 (delete output schema and non-restartability).  For every child, table
handle and index list, the constructed `DeleteExecutor` has the tag `DML`, has
`is_end_ = false`, keeps the child, the table handle and the indexes it was
given, and has an output schema of exactly one field, named "deleted", of type
`TYPE_INT` and of size `sizeof(int)`.  `Init` leaves by the fatal exit in
every state of the executor, which it does not change. -/
theorem DeleteExecutor_schema_and_Init {χ τ ι : Type} (cfg : Config) (child : χ) (tbl : τ)
    (indexes : List ι) :
    (DeleteExecutor.new cfg child tbl indexes).type_ = ExecutorType.DML ∧
    (DeleteExecutor.new cfg child tbl indexes).is_end_ = false ∧
    (DeleteExecutor.new cfg child tbl indexes).child_ = child ∧
    (DeleteExecutor.new cfg child tbl indexes).tbl_ = tbl ∧
    (DeleteExecutor.new cfg child tbl indexes).indexes_ = indexes ∧
    DeleteExecutor.GetOutSchema (DeleteExecutor.new cfg child tbl indexes) =
      some (RecordSchema.mk
        [{ field_ := { field_name_ := "deleted", field_size_ := cfg.sizeof_int,
                       field_type_ := FieldType.TYPE_INT } }]) ∧
    (∀ self : DeleteExecutor χ τ ι,
      DeleteExecutor.Init self =
        (.error (.FETAL "DeleteExecutor" "Init()" "DeleteExecutor does not support Init"), self) ∧
      DeleteExecutor.GetOutSchema (DeleteExecutor.Init self).2 = DeleteExecutor.GetOutSchema self) := by
  refine ⟨rfl, rfl, rfl, rfl, rfl, rfl, fun self => ⟨rfl, rfl⟩⟩

/-- C7 as stated fails: for the delete executor whose child produces the one
record 7, over a table and an index that hold it, there is no state after
`Next` in which the call has returned, the record is gone from the table and
from the index, and `IsEnd` is true. -/
theorem DeleteExecutor_Next_counterexample :
    ¬ ∃ after : DeleteExecutor (List Nat) (List Nat) (List Nat),
      DeleteExecutor.Next demo_delete = (.ok (), after) ∧
      after.tbl_ = [] ∧ after.indexes_ = [[]] ∧ DeleteExecutor.IsEnd after = .ok true := by
  rintro ⟨after, h, _⟩
  simp [DeleteExecutor.Next] at h

/-- C7 as amended.  `DeleteExecutor::Next` and `DeleteExecutor::IsEnd` are
placeholders: for every child, table handle and index list and in every state
of the executor, `Next` leaves by `WSDB_STUDENT_TODO` with the child, the
table, the indexes, `is_end_` and the output schema as they were, so no record
is removed and none is produced, and `IsEnd` leaves by `WSDB_STUDENT_TODO`
without a value. -/
theorem DeleteExecutor_Next_IsEnd_not_implemented {χ τ ι : Type} (self : DeleteExecutor χ τ ι) :
    DeleteExecutor.Next self =
      (.error (.STUDENT_TODO "L2" "t1" "DeleteExecutor" "Next()"), self) ∧
    DeleteExecutor.IsEnd self = .error (.STUDENT_TODO "L2" "t1" "DeleteExecutor" "IsEnd()") ∧
    DeleteExecutor.IsEnd (DeleteExecutor.Next self).2 =
      .error (.STUDENT_TODO "L2" "t1" "DeleteExecutor" "IsEnd()") := by
  exact ⟨rfl, rfl, rfl⟩

/-! ## Sequential scan -/

/-- C8 as stated fails: for the scan over a table that stores no record,
there is no state after `Init` in which the call has returned and `IsEnd` is
true. -/
theorem SeqScanExecutor_Init_counterexample :
    ¬ ∃ after : SeqScanExecutor (List Nat),
      SeqScanExecutor.Init demo_scan = (.ok (), after) ∧ SeqScanExecutor.IsEnd after = .ok true := by
  rintro ⟨after, h, _⟩
  simp [SeqScanExecutor.Init] at h

/-- C8 as amended.  `SeqScanExecutor::Init`, `Next` and `IsEnd` are
placeholders: for every table handle and in every state of the executor each
of them leaves by `WSDB_STUDENT_TODO`; `Init` and `Next` produce no record and
leave the executor as it was, and `IsEnd`, a `const` member, yields no value
and has no state to change. -/
theorem SeqScanExecutor_not_implemented {τ : Type} (self : SeqScanExecutor τ) :
    SeqScanExecutor.Init self =
      (.error (.STUDENT_TODO "L2" "t1" "SeqScanExecutor" "Init()"), self) ∧
    SeqScanExecutor.Next self =
      (.error (.STUDENT_TODO "L2" "t1" "SeqScanExecutor" "Next()"), self) ∧
    SeqScanExecutor.IsEnd self = .error (.STUDENT_TODO "L2" "t1" "SeqScanExecutor" "IsEnd()") := by
  exact ⟨rfl, rfl, rfl⟩

/-! ## In the file model every underlying open is fresh

The descriptors that the disk manager tracks stay open in the file model, and
`open` returns a descriptor that was not open; so the assumption `opensFresh`
holds for every sequence of calls from the empty disk manager. -/

theorem find_set_isSome {κ ν : Type} [DecidableEq κ] (m : List (κ × ν)) (k j : κ) (v : ν)
    (h : (Map.find m j).isSome = true) : (Map.find (Map.set m k v) j).isSome = true := by
  by_cases hk : k = j
  · subst hk
    rw [Map.find_set_self]
    rfl
  · rw [Map.find_set_of_ne m k j v hk]
    exact h

theorem posix_ofstream_fds (os : Posix) (path : String) : (Posix.ofstream os path).2.fds = os.fds := by
  unfold Posix.ofstream
  split_ifs
  · rfl
  · split <;> rfl

theorem posix_unlink_fds (os : Posix) (path : String) : (Posix.unlink os path).2.fds = os.fds := by
  unfold Posix.unlink
  split <;> rfl

theorem posix_lseek_fds (os : Posix) (fd off whence j : Int)
    (h : (Map.find os.fds j).isSome = true) :
    (Map.find (Posix.lseek os fd off whence).2.fds j).isSome = true := by
  unfold Posix.lseek
  split
  · exact h
  · split
    · exact h
    · split
      · exact h
      · split_ifs
        · exact h
        · exact find_set_isSome _ _ _ _ h

theorem posix_write_fds (os : Posix) (fd : Int) (data : List Byte) (n : Nat) (j : Int)
    (h : (Map.find os.fds j).isSome = true) :
    (Map.find (Posix.write os fd data n).2.fds j).isSome = true := by
  unfold Posix.write
  split
  · exact h
  · split
    · exact h
    · split_ifs
      · exact h
      · exact find_set_isSome _ _ _ _ h

theorem posix_read_fds (os : Posix) (fd : Int) (n : Nat) (j : Int)
    (h : (Map.find os.fds j).isSome = true) :
    (Map.find (Posix.read os fd n).2.2.fds j).isSome = true := by
  unfold Posix.read
  split
  · exact h
  · split
    · exact h
    · exact find_set_isSome _ _ _ _ h

theorem posix_open_fds (os : Posix) (path : String) (j : Int)
    (h : (Map.find os.fds j).isSome = true) :
    (Map.find (Posix.open_rdwr os path).2.fds j).isSome = true := by
  unfold Posix.open_rdwr
  split
  · exact h
  · split
    · exact h
    · exact find_set_isSome _ _ _ _ h

/-- The descriptor that `open` returns is -1 or was not open before, and it
is open afterwards. -/
theorem posix_open_fresh (os : Posix) (path : String) (h : (Posix.open_rdwr os path).1 ≠ -1) :
    Map.find os.fds (Posix.open_rdwr os path).1 = none ∧
    (Map.find (Posix.open_rdwr os path).2.fds (Posix.open_rdwr os path).1).isSome = true := by
  unfold Posix.open_rdwr at h ⊢
  cases hd : Map.find os.dir path with
  | none => simp [hd] at h
  | some ino =>
    cases hl : Posix.lowestFree os with
    | none => simp [hd, hl] at h
    | some n =>
      have hp := List.find?_some hl
      simp only [Bool.and_eq_true, decide_eq_true_eq, Option.isNone_iff_eq_none] at hp
      simp only [hp.2, Map.find_set_self, Option.isSome_some, and_self]

theorem posix_close_fds (os : Posix) (fd j : Int) (hne : fd ≠ j)
    (h : (Map.find os.fds j).isSome = true) :
    (Map.find (Posix.close os fd).2.fds j).isSome = true := by
  unfold Posix.close
  split
  · exact h
  · show (Map.find (Map.erase os.fds fd) j).isSome = true
    rw [Map.find_erase_of_ne _ _ _ hne]
    exact h

theorem DescriptorsOpen_step (cfg : Config) (op : Op) (dm : DiskManager) (os : Posix)
    (h : DescriptorsOpen dm os) :
    DescriptorsOpen (step cfg posix op dm os).1 (step cfg posix op dm os).2 := by
  intro j
  cases op with
  | CreateFile fname =>
    simp only [step, CreateFile_dm]
    intro hj
    unfold DiskManager.CreateFile
    split_ifs
    · exact h j hj
    · show (Map.find (Posix.ofstream os fname).2.fds j).isSome = true
      rw [posix_ofstream_fds]; exact h j hj
    · show (Map.find (Posix.ofstream os fname).2.fds j).isSome = true
      rw [posix_ofstream_fds]; exact h j hj
  | DestroyFile fname =>
    simp only [step, DestroyFile_dm]
    intro hj
    unfold DiskManager.DestroyFile
    split_ifs
    · exact h j hj
    · show (Map.find (Posix.unlink os fname).2.fds j).isSome = true
      rw [posix_unlink_fds]; exact h j hj
    · show (Map.find (Posix.unlink os fname).2.fds j).isSome = true
      rw [posix_unlink_fds]; exact h j hj
  | OpenFile fname =>
    simp only [step]
    unfold DiskManager.OpenFile
    split_ifs with h1 h2 h3
    · exact h j
    · exact h j
    · intro hj
      exact posix_open_fds os fname j (h j hj)
    · intro hj
      show (Map.find (Posix.open_rdwr os fname).2.fds j).isSome = true
      by_cases hjf : (posix.open_rdwr os fname).1 = j
      · rw [← hjf]
        exact (posix_open_fresh os fname h3).2
      · refine posix_open_fds os fname j (h j ?_)
        have : Map.find (Map.insert dm.fid_name_map_ (posix.open_rdwr os fname).1 fname) j =
            Map.find dm.fid_name_map_ j := Map.find_insert_of_ne _ _ _ _ hjf
        rw [← this]
        exact hj
  | CloseFile f =>
    simp only [step]
    unfold DiskManager.CloseFile
    split
    · exact h j
    · intro hj
      show (Map.find (Posix.close os f).2.fds j).isSome = true
      by_cases hjf : f = j
      · subst hjf
        have : Map.find (Map.erase dm.fid_name_map_ f) f = none := Map.find_erase_self _ _
        simp only at hj
        rw [this] at hj
        cases hj
      · refine posix_close_fds os f j hjf (h j ?_)
        have : Map.find (Map.erase dm.fid_name_map_ f) j = Map.find dm.fid_name_map_ j :=
          Map.find_erase_of_ne _ _ _ hjf
        rw [← this]
        exact hj
  | WritePage f p d =>
    simp only [step, WritePage_dm]
    intro hj
    unfold DiskManager.WritePage
    split
    · exact h j hj
    · split_ifs
      · exact posix_write_fds _ f d _ j (posix_lseek_fds os f _ _ j (h j hj))
      · exact posix_write_fds _ f d _ j (posix_lseek_fds os f _ _ j (h j hj))
  | ReadPage f p d =>
    simp only [step, ReadPage_dm]
    intro hj
    unfold DiskManager.ReadPage
    split
    · exact h j hj
    · split_ifs
      · exact posix_read_fds _ f _ j (posix_lseek_fds os f _ _ j (h j hj))
      · exact posix_read_fds _ f _ j (posix_lseek_fds os f _ _ j (h j hj))
  | ReadFile f d s o t =>
    simp only [step, ReadFile_dm]
    intro hj
    unfold DiskManager.ReadFile
    split
    · exact h j hj
    · exact posix_read_fds _ f _ j (posix_lseek_fds os f _ _ j (h j hj))
  | WriteFile f d s t =>
    simp only [step, WriteFile_dm]
    intro hj
    unfold DiskManager.WriteFile
    split
    · exact h j hj
    · split
      · exact h j hj
      · exact posix_write_fds _ f d _ j (posix_lseek_fds os f _ _ j (h j hj))
  | WriteLog a b => exact h j
  | ReadLog a b => exact h j
  | GetFileId a => exact h j
  | GetFileName a => exact h j
  | FileExists a => exact h j

theorem posix_openFresh (fname : String) (dm : DiskManager) (os : Posix)
    (h : DescriptorsOpen dm os) : openFresh posix fname dm os = true := by
  unfold openFresh
  by_cases hfd : (posix.open_rdwr os fname).1 = -1
  · simp [hfd]
  · have hnone := (posix_open_fresh os fname hfd).1
    have : Map.find dm.fid_name_map_ (posix.open_rdwr os fname).1 = none := by
      cases hf : Map.find dm.fid_name_map_ (posix.open_rdwr os fname).1 with
      | none => rfl
      | some n =>
        have := h (posix.open_rdwr os fname).1 (by rw [hf]; rfl)
        change (Map.find os.fds (Posix.open_rdwr os fname).1).isSome = true at this
        rw [hnone] at this
        cases this
    simp [this]

/-- Over the file model the assumption on `open` holds by itself: in every
sequence of calls from a disk manager whose tracked descriptors are open,
every underlying `open` returns -1 or a descriptor that is not tracked. -/
theorem posix_opensFresh (cfg : Config) (ops : List Op) :
    ∀ (dm : DiskManager) (os : Posix), DescriptorsOpen dm os →
      opensFresh cfg posix ops dm os = true := by
  induction ops with
  | nil => intro dm os _; rfl
  | cons op ops ih =>
    intro dm os h
    have hrest := ih _ _ (DescriptorsOpen_step cfg op dm os h)
    cases op <;> simp only [opensFresh, hrest, Bool.and_true, Bool.true_and]
    exact posix_openFresh _ dm os h

/-- The empty disk manager tracks no descriptor. -/
theorem DescriptorsOpen_empty (os : Posix) : DescriptorsOpen DiskManager.empty os := by
  intro j hj
  simp [DiskManager.empty, Map.find] at hj

/-! ## Open exclusivity and id invalidation over the file model -/

theorem run_append {σ : Type} (cfg : Config) (sys : Sys σ) (a b : List Op) :
    ∀ (dm : DiskManager) (os : σ),
      run cfg sys (a ++ b) dm os = run cfg sys b (run cfg sys a dm os).1 (run cfg sys a dm os).2 := by
  induction a with
  | nil => intro dm os; rfl
  | cons op a ih => intro dm os; exact ih _ _

/-- A call other than `CloseFile fid` keeps a tracked `fid` with its name. -/
theorem step_keeps_fid {σ : Type} (cfg : Config) (sys : Sys σ) (op : Op) (dm : DiskManager)
    (os : σ) (name : String) (fid : Int) (hop : op ≠ Op.CloseFile fid)
    (h : Map.find dm.fid_name_map_ fid = some name) :
    Map.find (step cfg sys op dm os).1.fid_name_map_ fid = some name := by
  cases op with
  | CloseFile f =>
    have hne : f ≠ fid := fun e => hop (by rw [e])
    simp only [step, DiskManager.CloseFile]
    split
    · exact h
    · show Map.find (Map.erase dm.fid_name_map_ f) fid = some name
      rw [Map.find_erase_of_ne _ _ _ hne]
      exact h
  | OpenFile fname =>
    simp only [step]
    unfold DiskManager.OpenFile
    split_ifs
    · exact h
    · exact h
    · exact h
    · exact Map.find_insert_of_some _ _ _ _ _ h
  | CreateFile fname => simpa [step, CreateFile_dm] using h
  | DestroyFile fname => simpa [step, DestroyFile_dm] using h
  | WritePage f p d => simpa [step, WritePage_dm] using h
  | ReadPage f p d => simpa [step, ReadPage_dm] using h
  | ReadFile f d s o t => simpa [step, ReadFile_dm] using h
  | WriteFile f d s t => simpa [step, WriteFile_dm] using h
  | WriteLog a b => simpa [step, DiskManager.WriteLog] using h
  | ReadLog a b => simpa [step, DiskManager.ReadLog] using h
  | GetFileId a => simpa [step] using h
  | GetFileName a => simpa [step] using h
  | FileExists a => simpa [step] using h

/-- A sequence of calls without `CloseFile fid` keeps a tracked `fid` with its
name. -/
theorem run_keeps_fid {σ : Type} (cfg : Config) (sys : Sys σ) (ops : List Op) :
    ∀ (dm : DiskManager) (os : σ) (name : String) (fid : Int),
      (ops.all fun op => decide (op ≠ Op.CloseFile fid)) = true →
      Map.find dm.fid_name_map_ fid = some name →
      Map.find (run cfg sys ops dm os).1.fid_name_map_ fid = some name := by
  induction ops with
  | nil => intro dm os name fid _ h; exact h
  | cons op ops ih =>
    intro dm os name fid hall h
    simp only [List.all_cons, Bool.and_eq_true, decide_eq_true_eq] at hall
    exact ih _ _ name fid hall.2 (step_keeps_fid cfg sys op dm os name fid hall.1 h)

theorem DescriptorsOpen_run (cfg : Config) (ops : List Op) :
    ∀ (dm : DiskManager) (os : Posix), DescriptorsOpen dm os →
      DescriptorsOpen (run cfg posix ops dm os).1 (run cfg posix ops dm os).2 := by
  induction ops with
  | nil => intro dm os h; exact h
  | cons op ops ih => intro dm os h; exact ih _ _ (DescriptorsOpen_step cfg op dm os h)

/-- Over the file model, in every state reached from the empty disk manager
the maps are inverse to each other and the tracked descriptors are open. -/
theorem posix_reachable (cfg : Config) (ops : List Op) (os0 : Posix) :
    MutualInverse (run cfg posix ops DiskManager.empty os0).1 ∧
    DescriptorsOpen (run cfg posix ops DiskManager.empty os0).1
      (run cfg posix ops DiskManager.empty os0).2 :=
  ⟨MutualInverse_run cfg posix ops _ _ MutualInverse_empty
      (posix_opensFresh cfg ops _ _ (DescriptorsOpen_empty os0)),
   DescriptorsOpen_run cfg ops _ _ (DescriptorsOpen_empty os0)⟩

/-- Over the file model, after an `OpenFile fname` that returned `fid` in a
state reached from the empty disk manager, and after further calls other than
`CloseFile fid`, the name and the id are tracked with each other. -/
theorem posix_pair_tracked (cfg : Config) (ops mid : List Op) (os0 : Posix) (fname : String)
    (fid : Int)
    (hopen : (DiskManager.OpenFile posix fname (run cfg posix ops DiskManager.empty os0).1
      (run cfg posix ops DiskManager.empty os0).2).result = .ok fid)
    (hmid : (mid.all fun op => decide (op ≠ Op.CloseFile fid)) = true) :
    Map.find (run cfg posix (ops ++ Op.OpenFile fname :: mid) DiskManager.empty os0).1.fid_name_map_
      fid = some fname ∧
    Map.find (run cfg posix (ops ++ Op.OpenFile fname :: mid) DiskManager.empty os0).1.name_fid_map_
      fname = some fid := by
  have hinv := (posix_reachable cfg (ops ++ Op.OpenFile fname :: mid) os0).1
  obtain ⟨_, hopenD⟩ := posix_reachable cfg ops os0
  have hfresh := posix_openFresh fname _ _ hopenD
  obtain ⟨hex, hn, hfd, hne, hdm, _⟩ := OpenFile_ok posix fname _ _ fid hopen
  have hf0 : Map.find (run cfg posix ops DiskManager.empty os0).1.fid_name_map_ fid = none := by
    simp only [openFresh, DiskManager.FileExists, hex, hn, hfd, Bool.not_true, Option.isSome_none,
      Bool.or_self, Bool.false_or, Bool.or_eq_true, decide_eq_true_eq,
      Option.isNone_iff_eq_none] at hfresh
    rcases hfresh with h | h
    · exact absurd h hne
    · exact h
  have hf1 : Map.find (DiskManager.OpenFile posix fname (run cfg posix ops DiskManager.empty os0).1
      (run cfg posix ops DiskManager.empty os0).2).dm.fid_name_map_ fid = some fname := by
    rw [hdm]; exact Map.find_insert_self _ _ _ hf0
  have hf2 : Map.find (run cfg posix (ops ++ Op.OpenFile fname :: mid) DiskManager.empty
      os0).1.fid_name_map_ fid = some fname := by
    rw [run_append]
    exact run_keeps_fid cfg posix mid _ _ fname fid hmid hf1
  exact ⟨hf2, (hinv fname fid).2 hf2⟩

/-- C1 (open exclusivity), over the file model.  Take any state reached from
the empty disk manager by any sequence of calls `ops`, started in any state of
the file system, and let `OpenFile fname` return `fid` there.

* After any further calls `mid` other than `CloseFile`, a second
  `OpenFile fname`, made while the file exists, throws `WSDB_FILE_REOPEN` and
  leaves both maps and the file system as they were.
* After any further calls `mid` other than `CloseFile fid`, `CloseFile fid`
  returns, and after it `OpenFile fname` returns the descriptor of the
  underlying `open` whenever the file still exists and that `open` does not
  fail. -/
theorem OpenFile_exclusive (cfg : Config) (ops : List Op) (os0 : Posix) (fname : String) (fid : Int)
    (hopen : (DiskManager.OpenFile posix fname (run cfg posix ops DiskManager.empty os0).1
      (run cfg posix ops DiskManager.empty os0).2).result = .ok fid) :
    (∀ (mid : List Op) (s : DiskManager × Posix), (mid.all fun op => !op.isClose) = true →
      s = run cfg posix (ops ++ Op.OpenFile fname :: mid) DiskManager.empty os0 →
      posix.fs_exists s.2 fname = true →
      DiskManager.OpenFile posix fname s.1 s.2 =
        ⟨.error (.WSDBException .WSDB_FILE_REOPEN "DiskManager" "OpenFile" fname), s.1, s.2⟩) ∧
    (∀ (mid : List Op) (s : DiskManager × Posix),
      (mid.all fun op => decide (op ≠ Op.CloseFile fid)) = true →
      s = run cfg posix (ops ++ Op.OpenFile fname :: mid) DiskManager.empty os0 →
      (DiskManager.CloseFile posix fid s.1 s.2).result = .ok () ∧
      (posix.fs_exists (DiskManager.CloseFile posix fid s.1 s.2).os fname = true →
        (posix.open_rdwr (DiskManager.CloseFile posix fid s.1 s.2).os fname).1 ≠ -1 →
        (DiskManager.OpenFile posix fname (DiskManager.CloseFile posix fid s.1 s.2).dm
          (DiskManager.CloseFile posix fid s.1 s.2).os).result =
          .ok (posix.open_rdwr (DiskManager.CloseFile posix fid s.1 s.2).os fname).1)) := by
  constructor
  · intro mid s hmid hs hex
    have hmid2 : (mid.all fun op => decide (op ≠ Op.CloseFile fid)) = true := by
      rw [List.all_eq_true] at hmid ⊢
      intro op hop
      have := hmid op hop
      cases op <;> simp_all [Op.isClose]
    have ht := (posix_pair_tracked cfg ops mid os0 fname fid hopen hmid2).2
    rw [← hs] at ht
    exact OpenFile_of_tracked posix fname s.1 s.2 fid hex ht
  · intro mid s hmid hs
    have ht := (posix_pair_tracked cfg ops mid os0 fname fid hopen hmid).1
    rw [← hs] at ht
    rw [CloseFile_of_tracked posix fid s.1 s.2 fname ht]
    refine ⟨rfl, ?_⟩
    intro hex hfd
    rw [OpenFile_of_untracked posix fname _ _ hex (Map.find_erase_self _ _) hfd]

/-- A call that is no `OpenFile` returning `fid` leaves an untracked `fid`
untracked. -/
theorem step_keeps_fid_untracked {σ : Type} (cfg : Config) (sys : Sys σ) (op : Op)
    (dm : DiskManager) (os : σ) (fid : Int) (hop : op.returnsId sys fid dm os = false)
    (h : Map.find dm.fid_name_map_ fid = none) :
    Map.find (step cfg sys op dm os).1.fid_name_map_ fid = none := by
  cases op with
  | OpenFile fname =>
    simp only [step]
    cases hres : (DiskManager.OpenFile sys fname dm os).result with
    | error e => rw [OpenFile_error_dm sys fname dm os e hres]; exact h
    | ok fd =>
      have hne : fd ≠ fid := by
        simpa [Op.returnsId, hres] using hop
      obtain ⟨_, _, _, _, hdm, _⟩ := OpenFile_ok sys fname dm os fd hres
      rw [hdm]
      show Map.find (Map.insert dm.fid_name_map_ fd fname) fid = none
      rw [Map.find_insert_of_ne _ _ _ _ hne]
      exact h
  | CloseFile f =>
    simp only [step, DiskManager.CloseFile]
    split
    · exact h
    · exact Map.find_erase_of_none _ _ _ h
  | CreateFile fname => simpa [step, CreateFile_dm] using h
  | DestroyFile fname => simpa [step, DestroyFile_dm] using h
  | WritePage f p d => simpa [step, WritePage_dm] using h
  | ReadPage f p d => simpa [step, ReadPage_dm] using h
  | ReadFile f d s o t => simpa [step, ReadFile_dm] using h
  | WriteFile f d s t => simpa [step, WriteFile_dm] using h
  | WriteLog a b => simpa [step, DiskManager.WriteLog] using h
  | ReadLog a b => simpa [step, DiskManager.ReadLog] using h
  | GetFileId a => simpa [step] using h
  | GetFileName a => simpa [step] using h
  | FileExists a => simpa [step] using h

/-- A call that is no returning `OpenFile` of `name` leaves an untracked
`name` untracked. -/
theorem step_keeps_name_untracked {σ : Type} (cfg : Config) (sys : Sys σ) (op : Op)
    (dm : DiskManager) (os : σ) (name : String) (hop : op.opensName sys name dm os = false)
    (h : Map.find dm.name_fid_map_ name = none) :
    Map.find (step cfg sys op dm os).1.name_fid_map_ name = none := by
  cases op with
  | OpenFile fname =>
    simp only [step]
    cases hres : (DiskManager.OpenFile sys fname dm os).result with
    | error e => rw [OpenFile_error_dm sys fname dm os e hres]; exact h
    | ok fd =>
      have hne : fname ≠ name := by
        simpa [Op.opensName, hres] using hop
      obtain ⟨_, _, _, _, hdm, _⟩ := OpenFile_ok sys fname dm os fd hres
      rw [hdm]
      show Map.find (Map.insert dm.name_fid_map_ fname fd) name = none
      rw [Map.find_insert_of_ne _ _ _ _ hne]
      exact h
  | CloseFile f =>
    simp only [step, DiskManager.CloseFile]
    split
    · exact h
    · exact Map.find_erase_of_none _ _ _ h
  | CreateFile fname => simpa [step, CreateFile_dm] using h
  | DestroyFile fname => simpa [step, DestroyFile_dm] using h
  | WritePage f p d => simpa [step, WritePage_dm] using h
  | ReadPage f p d => simpa [step, ReadPage_dm] using h
  | ReadFile f d s o t => simpa [step, ReadFile_dm] using h
  | WriteFile f d s t => simpa [step, WriteFile_dm] using h
  | WriteLog a b => simpa [step, DiskManager.WriteLog] using h
  | ReadLog a b => simpa [step, DiskManager.ReadLog] using h
  | GetFileId a => simpa [step] using h
  | GetFileName a => simpa [step] using h
  | FileExists a => simpa [step] using h

/-- A sequence of calls in which no `OpenFile` returns `fid` leaves an
untracked `fid` untracked. -/
theorem run_keeps_fid_untracked {σ : Type} (cfg : Config) (sys : Sys σ) (ops : List Op) :
    ∀ (dm : DiskManager) (os : σ) (fid : Int),
      idNotReturned cfg sys fid ops dm os = true →
      Map.find dm.fid_name_map_ fid = none →
      Map.find (run cfg sys ops dm os).1.fid_name_map_ fid = none := by
  induction ops with
  | nil => intro dm os fid _ h; exact h
  | cons op ops ih =>
    intro dm os fid hall h
    simp only [idNotReturned, Bool.and_eq_true, Bool.not_eq_true'] at hall
    exact ih _ _ fid hall.2 (step_keeps_fid_untracked cfg sys op dm os fid hall.1 h)

/-- A sequence of calls in which no `OpenFile` of `name` returns leaves an
untracked `name` untracked. -/
theorem run_keeps_name_untracked {σ : Type} (cfg : Config) (sys : Sys σ) (ops : List Op) :
    ∀ (dm : DiskManager) (os : σ) (name : String),
      nameNotOpened cfg sys name ops dm os = true →
      Map.find dm.name_fid_map_ name = none →
      Map.find (run cfg sys ops dm os).1.name_fid_map_ name = none := by
  induction ops with
  | nil => intro dm os name _ h; exact h
  | cons op ops ih =>
    intro dm os name hall h
    simp only [nameNotOpened, Bool.and_eq_true, Bool.not_eq_true'] at hall
    exact ih _ _ name hall.2 (step_keeps_name_untracked cfg sys op dm os name hall.1 h)

/-- After "a" was opened and closed and "c" was opened, a page of the id 3
is read. -/
theorem demo_c_opened_ReadPage :
    (DiskManager.ReadPage demo_cfg posix 3 0 [9, 9, 9, 9] demo_c_opened.1 demo_c_opened.2).result =
      .ok [9, 9, 9, 9] :=
  rfl

/-- After "a" was opened and closed and "c" was opened, a page of the id 3
is written. -/
theorem demo_c_opened_WritePage :
    (DiskManager.WritePage demo_cfg posix 3 0 [1, 2, 3, 4] demo_c_opened.1 demo_c_opened.2).result =
      .ok () :=
  rfl

/-- C2 as stated fails.  The files "a" and "c" exist; `OpenFile "a"` returns
the id 3 and `CloseFile 3` returns.  A subsequent `OpenFile "c"` is handed the
descriptor 3 again, and after it `GetFileName 3`, `ReadPage` and `WritePage`
on 3 and a second `CloseFile 3` all return instead of failing. -/
theorem CloseFile_invalidates_id_counterexample :
    (DiskManager.OpenFile posix "a" demo_two_files.1 demo_two_files.2).result = .ok 3 ∧
    (DiskManager.CloseFile posix 3 demo_a_opened.1 demo_a_opened.2).result = .ok () ∧
    (DiskManager.OpenFile posix "c" demo_a_closed.1 demo_a_closed.2).result = .ok 3 ∧
    DiskManager.GetFileName 3 demo_c_opened.1 = .ok "c" ∧
    (DiskManager.ReadPage demo_cfg posix 3 0 [9, 9, 9, 9] demo_c_opened.1 demo_c_opened.2).result =
      .ok [9, 9, 9, 9] ∧
    (DiskManager.WritePage demo_cfg posix 3 0 [1, 2, 3, 4] demo_c_opened.1 demo_c_opened.2).result =
      .ok () ∧
    (DiskManager.CloseFile posix 3 demo_c_opened.1 demo_c_opened.2).result = .ok () :=
  ⟨rfl, rfl, rfl, rfl, demo_c_opened_ReadPage, demo_c_opened_WritePage, rfl⟩

/-- C2 as amended (id invalidation), over the file model.  Take any state
reached from the empty disk manager by any sequence of calls `ops`, started
in any state of the file system, let `OpenFile fname` return `fid` there, and
let any calls `mid` other than `CloseFile fid` follow.  Then `CloseFile fid`
returns, and after it and after any further calls `post`:

* as long as no `OpenFile` among `post` returned the id `fid` again,
  `ReadPage` and `WritePage` on `fid` leave by the failed assertion on the
  id, with the file system untouched, and `GetFileName fid` and a further
  `CloseFile fid` throw `WSDB_FILE_NOT_OPEN`, the latter with maps and file
  system untouched;
* as long as no `OpenFile fname` among `post` returned, `GetFileId fname` is
  `INVALID_TABLE_ID`. -/
theorem CloseFile_invalidates_id (cfg : Config) (ops : List Op) (os0 : Posix) (fname : String)
    (fid : Int)
    (hopen : (DiskManager.OpenFile posix fname (run cfg posix ops DiskManager.empty os0).1
      (run cfg posix ops DiskManager.empty os0).2).result = .ok fid) :
    ∀ (mid : List Op) (s : DiskManager × Posix),
      (mid.all fun op => decide (op ≠ Op.CloseFile fid)) = true →
      s = run cfg posix (ops ++ Op.OpenFile fname :: mid) DiskManager.empty os0 →
      (DiskManager.CloseFile posix fid s.1 s.2).result = .ok () ∧
      ∀ (post : List Op) (t : DiskManager × Posix),
        t = run cfg posix post (DiskManager.CloseFile posix fid s.1 s.2).dm
          (DiskManager.CloseFile posix fid s.1 s.2).os →
        (idNotReturned cfg posix fid post (DiskManager.CloseFile posix fid s.1 s.2).dm
            (DiskManager.CloseFile posix fid s.1 s.2).os = true →
          (∀ (page_id : Int) (buf : List Byte),
            DiskManager.ReadPage cfg posix fid page_id buf t.1 t.2 =
              ⟨.error (.FETAL "DiskManager" "ReadPage()" ("fid: " ++ toString fid)), t.1, t.2⟩) ∧
          (∀ (page_id : Int) (data : List Byte),
            DiskManager.WritePage cfg posix fid page_id data t.1 t.2 =
              ⟨.error (.FETAL "DiskManager" "WritePage()" ("fid: " ++ toString fid)), t.1, t.2⟩) ∧
          DiskManager.GetFileName fid t.1 =
            .error (.WSDBException .WSDB_FILE_NOT_OPEN "DiskManager" "GetFileName"
              ("fid: " ++ toString fid)) ∧
          DiskManager.CloseFile posix fid t.1 t.2 =
            ⟨.error (.WSDBException .WSDB_FILE_NOT_OPEN "DiskManager" "CloseFile"
              ("fid: " ++ toString fid)), t.1, t.2⟩) ∧
        (nameNotOpened cfg posix fname post (DiskManager.CloseFile posix fid s.1 s.2).dm
            (DiskManager.CloseFile posix fid s.1 s.2).os = true →
          DiskManager.GetFileId cfg fname t.1 = cfg.INVALID_TABLE_ID) := by
  intro mid s hmid hs
  have ht := (posix_pair_tracked cfg ops mid os0 fname fid hopen hmid).1
  rw [← hs] at ht
  rw [CloseFile_of_tracked posix fid s.1 s.2 fname ht]
  refine ⟨rfl, ?_⟩
  intro post t htq
  constructor
  · intro hpost
    have hi := run_keeps_fid_untracked cfg posix post
      { name_fid_map_ := Map.erase s.1.name_fid_map_ fname,
        fid_name_map_ := Map.erase s.1.fid_name_map_ fid }
      (posix.close s.2 fid).2 fid hpost (Map.find_erase_self s.1.fid_name_map_ fid)
    rw [← htq] at hi
    refine ⟨?_, ?_, ?_, ?_⟩
    · intro page_id buf
      exact ReadPage_of_untracked cfg posix fid page_id buf t.1 t.2 hi
    · intro page_id data
      exact WritePage_of_untracked cfg posix fid page_id data t.1 t.2 hi
    · simp [DiskManager.GetFileName, hi]
    · exact CloseFile_of_untracked posix fid t.1 t.2 hi
  · intro hpost
    have hn := run_keeps_name_untracked cfg posix post
      { name_fid_map_ := Map.erase s.1.name_fid_map_ fname,
        fid_name_map_ := Map.erase s.1.fid_name_map_ fid }
      (posix.close s.2 fid).2 fname hpost (Map.find_erase_self s.1.name_fid_map_ fname)
    rw [← htq] at hn
    simp [DiskManager.GetFileId, hn]

/-! ## The theorems at concrete states -/

/-- C1 at a concrete state: the file "a" is created and opened with
descriptor 3; a second `OpenFile` throws `WSDB_FILE_REOPEN`, and after
`CloseFile 3` the file is opened again. -/
theorem OpenFile_exclusive_witness :
    (DiskManager.OpenFile posix "a" demo_created.1 demo_created.2).result = .ok 3 ∧
    (DiskManager.OpenFile posix "a" demo_opened.1 demo_opened.2).result =
      .error (.WSDBException .WSDB_FILE_REOPEN "DiskManager" "OpenFile" "a") ∧
    (DiskManager.OpenFile posix "a"
      (DiskManager.CloseFile posix 3 demo_opened.1 demo_opened.2).dm
      (DiskManager.CloseFile posix 3 demo_opened.1 demo_opened.2).os).result = .ok 3 :=
  ⟨rfl,
   congrArg Ret.result
    ((OpenFile_exclusive demo_cfg [Op.CreateFile "a"] demo_init "a" 3 rfl).1 [] demo_opened rfl rfl
      rfl),
   ((OpenFile_exclusive demo_cfg [Op.CreateFile "a"] demo_init "a" 3 rfl).2 [] demo_opened rfl
      rfl).2 rfl (by decide)⟩

/-- C2 as amended at a concrete state: the file "a" is created, opened with
descriptor 3 and closed; an `OpenFile` of a missing file follows, which does
not return; then `GetFileId "a"` gives the sentinel and `GetFileName 3`
throws `WSDB_FILE_NOT_OPEN`. -/
theorem CloseFile_invalidates_id_witness :
    (DiskManager.OpenFile posix "a" demo_created.1 demo_created.2).result = .ok 3 ∧
    DiskManager.GetFileId demo_cfg "a"
      (run demo_cfg posix [Op.OpenFile "zz"]
        (DiskManager.CloseFile posix 3 demo_opened.1 demo_opened.2).dm
        (DiskManager.CloseFile posix 3 demo_opened.1 demo_opened.2).os).1 = -1 ∧
    DiskManager.GetFileName 3
      (run demo_cfg posix [Op.OpenFile "zz"]
        (DiskManager.CloseFile posix 3 demo_opened.1 demo_opened.2).dm
        (DiskManager.CloseFile posix 3 demo_opened.1 demo_opened.2).os).1 =
      .error (.WSDBException .WSDB_FILE_NOT_OPEN "DiskManager" "GetFileName" "fid: 3") :=
  ⟨rfl,
   ((((CloseFile_invalidates_id demo_cfg [Op.CreateFile "a"] demo_init "a" 3 rfl) [] demo_opened
      rfl rfl).2 [Op.OpenFile "zz"] _ rfl).2 rfl),
   ((((CloseFile_invalidates_id demo_cfg [Op.CreateFile "a"] demo_init "a" 3 rfl) [] demo_opened
      rfl rfl).2 [Op.OpenFile "zz"] _ rfl).1 rfl).2.2.1⟩

/-- C3 at concrete states: a file that was removed while it was open is
reported as missing by `OpenFile`, although its name is tracked; a file that
exists is not created again. -/
theorem existence_preconditions_witness :
    posix.fs_exists demo_destroyed.2 "a" = false ∧
    (Map.find demo_destroyed.1.name_fid_map_ "a").isSome = true ∧
    DiskManager.OpenFile posix "a" demo_destroyed.1 demo_destroyed.2 =
      ⟨.error (.WSDBException .WSDB_FILE_NOT_EXISTS "DiskManager" "OpenFile" "a"),
        demo_destroyed.1, demo_destroyed.2⟩ ∧
    DiskManager.CreateFile posix "a" demo_opened.1 demo_opened.2 =
      ⟨.error (.WSDBException .WSDB_FILE_EXISTS "DiskManager" "CreateFile" "a"),
        demo_opened.1, demo_opened.2⟩ :=
  ⟨rfl, rfl,
   ((existence_preconditions posix demo_destroyed.1 demo_destroyed.2 "a").1 rfl).1,
   (existence_preconditions posix demo_opened.1 demo_opened.2 "a").2 rfl⟩

/-- C4 at a concrete state: on the file "a", created and opened, page 2 is
written and read back. -/
theorem WritePage_ReadPage_round_trip_witness :
    (DiskManager.WritePage demo_cfg posix 3 2 [1, 2, 3, 4] demo_opened.1 demo_opened.2).result
      = .ok () ∧
    (DiskManager.ReadPage demo_cfg posix 3 2 [9, 9, 9, 9]
      (DiskManager.WritePage demo_cfg posix 3 2 [1, 2, 3, 4] demo_opened.1 demo_opened.2).dm
      (DiskManager.WritePage demo_cfg posix 3 2 [1, 2, 3, 4] demo_opened.1 demo_opened.2).os).result
      = .ok [1, 2, 3, 4] :=
  ⟨rfl,
   ((WritePage_ReadPage_round_trip demo_cfg demo_opened.1 demo_opened.2 3 2 [1, 2, 3, 4]
      (by decide) (by decide) rfl rfl).1 [9, 9, 9, 9]).2 rfl⟩

/-- C5 at a concrete sequence of calls over two files, some of which do not
return. -/
theorem name_id_maps_inverse_witness :
    opensFresh demo_cfg posix demo_ops DiskManager.empty demo_init = true ∧
    MutualInverse (run demo_cfg posix demo_ops DiskManager.empty demo_init).1 :=
  ⟨by decide, (name_id_maps_inverse demo_cfg posix demo_ops demo_init (by decide)).1⟩

/-- C6 at a concrete state: `WriteFile` with the origin 7 on the open
descriptor 3. -/
theorem WriteFile_seek_origin_witness :
    (Map.find demo_opened.1.fid_name_map_ 3).isSome = true ∧
    DiskManager.WriteFile posix 3 [1, 2] 2 7 demo_opened.1 demo_opened.2 =
      ⟨.error (.FETAL "DiskManager" "WriteFile()" "Invalid Type"), demo_opened.1, demo_opened.2⟩ :=
  ⟨rfl, (WriteFile_seek_origin posix demo_opened.1 demo_opened.2 3 [1, 2] 2 7 rfl).1
    (by decide)⟩

/-- C10 at a concrete state: a page behind the size limit of the file cannot
be written, and a page behind the end of the empty file is read with the
buffer left as it was. -/
theorem page_io_error_conditions_witness :
    (Map.find demo_opened.1.fid_name_map_ 3).isSome = true ∧
    (DiskManager.WritePage demo_cfg posix 3 16 [1, 2, 3, 4] demo_opened.1 demo_opened.2).result =
      .error (.WSDBException .WSDB_PAGE_WRITE_ERROR "DiskManager" "WritePage"
        ("fid: " ++ toString (3 : Int) ++ ", page_id: " ++ toString (16 : Int))) ∧
    (DiskManager.ReadPage demo_cfg posix 3 5 [9, 9, 9, 9] demo_opened.1 demo_opened.2).result =
      .ok [9, 9, 9, 9] :=
  ⟨rfl,
   ((page_io_error_conditions demo_cfg posix demo_opened.1 demo_opened.2 3 16 rfl).1
      [1, 2, 3, 4]).1.mpr (by decide),
   ((page_io_error_conditions demo_cfg posix demo_opened.1 demo_opened.2 3 5 rfl).2.2
      demo_opened.2 (0, 0) [] [9, 9, 9, 9] rfl rfl (by decide) (by decide)).1 (by decide)⟩
end wsdb
